import Mathlib

/-!
Shallow embedding of `dbms/src/Functions/FunctionsConditional.cpp`
(the multiIf / CASE conditional engine of a columnar execution engine).

The file embeds, faithfully to the source:
  - the data-type model and the type resolver `FunctionMultiIf::getReturnTypeInternal`
    (source lines 270-439), with the classifier predicates of the external header
    `Conditional/ArgsInfo.h` modelled from the spec where the header is missing;
  - the column/block execution model, `FunctionMultiIf::performTrivialCase`
    (lines 445-540), the null-bitmap reconstruction of
    `FunctionMultiIf::executeImpl` (lines 117-268), and the delegation of
    `FunctionCaseWithoutExpr` (lines 745-758).

External collaborators (payload evaluators, condition source, numeric promotion,
nested-column block construction) are not under the provided sources; they are
modelled from the specification and marked as such in their doc comments.
Errors are modelled by kind, following the specification statement that error
kinds are not tied to any particular representation and that contextual
re-labelling only changes wording, never the kind; the CASE-vs-multiIf context
flag `is_case_mode` is threaded as a boolean tag on surfaced errors.
-/

namespace MultiIf

/-! ## Numeric kinds and lossless promotion (external collaborator) -/

/-- Numeric kinds of the engine; the spec data model gives each numeric type a
promotion rank. -/
inductive NumKind where
  | uint8
  | uint16
  | uint32
  | uint64
  | int8
  | int16
  | int32
  | int64
  | float32
  | float64
deriving DecidableEq, Repr, Fintype

/-- Bit width of the physical representation. -/
def NumKind.bits : NumKind → Nat
  | .uint8 => 8
  | .uint16 => 16
  | .uint32 => 32
  | .uint64 => 64
  | .int8 => 8
  | .int16 => 16
  | .int32 => 32
  | .int64 => 64
  | .float32 => 32
  | .float64 => 64

def NumKind.isFloat : NumKind → Bool
  | .float32 => true
  | .float64 => true
  | _ => false

def NumKind.isSigned : NumKind → Bool
  | .int8 => true
  | .int16 => true
  | .int32 => true
  | .int64 => true
  | _ => false

/-- Number of mantissa bits of a floating-point kind (0 for integers): the
amount of integer magnitude a float can hold exactly. -/
def NumKind.mantissa : NumKind → Nat
  | .float32 => 24
  | .float64 => 53
  | _ => 0

/-- Modelled from the spec: lossless representability, the relation underlying
the numeric-promotion collaborator, which must find a common numeric type that
can represent every branch "without precision loss".  `canRep t b` holds when
every value of kind `b` is exactly representable in kind `t`. -/
def canRep (t b : NumKind) : Bool :=
  if t.isFloat then
    if b.isFloat then b.bits ≤ t.bits
    else if b.isSigned then b.bits - 1 ≤ t.mantissa
    else b.bits ≤ t.mantissa
  else if t.isSigned then
    if b.isFloat then false
    else if b.isSigned then b.bits ≤ t.bits
    else b.bits < t.bits
  else
    if b.isFloat || b.isSigned then false
    else b.bits ≤ t.bits

/-- Promotion rank: a global order on numeric kinds by capacity, used to state
what "the minimal common numeric type" means. -/
def NumKind.rank : NumKind → Nat
  | .uint8 => 0
  | .int8 => 1
  | .uint16 => 2
  | .int16 => 3
  | .uint32 => 4
  | .int32 => 5
  | .float32 => 6
  | .uint64 => 7
  | .int64 => 8
  | .float64 => 9

/-- Modelled from the spec: the numeric-promotion collaborator
`commonNumericType(types) -> Type | UpscaleImpossible`.  Integer-only inputs
are never promoted to a float; any float input forces a float result; within
the forced family the smallest kind representing every input is chosen. -/
def commonNumericType (ts : List NumKind) : Option NumKind :=
  if ts.isEmpty then none
  else
    let cands :=
      if ts.any NumKind.isFloat then [NumKind.float32, NumKind.float64]
      else if ts.any NumKind.isSigned then [NumKind.int8, NumKind.int16, NumKind.int32, NumKind.int64]
      else [NumKind.uint8, NumKind.uint16, NumKind.uint32, NumKind.uint64]
    cands.find? (fun c => ts.all (fun b => canRep c b))

/-! ## Data types -/

/-- Branch type descriptors of the engine (spec §3): null-type,
nullable-wrapped, array-of-T, fixed-width string, variable string, numeric. -/
inductive DataType where
  | nullType
  | num (k : NumKind)
  | string
  | fixedString (n : Nat)
  | array (elt : DataType)
  | nullable (inner : DataType)
deriving DecidableEq, Repr

def DataType.isNullable : DataType → Bool
  | .nullable _ => true
  | _ => false

def DataType.isNull : DataType → Bool
  | .nullType => true
  | _ => false

/-- Model of `DataTypeNullable::getNestedType`, applied in the source only
after an `isNullable` check; the identity on other types. -/
def DataType.unwrapNullable : DataType → DataType
  | .nullable t => t
  | t => t

def DataType.isNumeric : DataType → Bool
  | .num _ => true
  | _ => false

def DataType.isArray : DataType → Bool
  | .array _ => true
  | _ => false

def DataType.isFixedString : DataType → Bool
  | .fixedString _ => true
  | _ => false

/-- Well-formed type: no directly nested nullable wrapper, mirroring the type
invariant of the surrounding engine (a nullable flag over a non-nullable inner
type). -/
def DataType.wf : DataType → Bool
  | .nullable t => !t.isNullable && t.wf
  | .array t => t.wf
  | _ => true

/-! ## Argument layout (modelled from the spec §4.1 / `Conditional/common.h`) -/

/-- Modelled from the spec: the argument list is laid out
`cond_1, then_1, ..., cond_N, then_N, else`; valid arity is odd and at least 3. -/
def hasValidArgCount (args : List α) : Bool :=
  args.length % 2 == 1 && 3 ≤ args.length

/-- Index of the else argument (`Conditional::elseArg`). -/
def elseArg (args : List α) : Nat := args.length - 1

/-- Index of the first then branch (`Conditional::firstThen`). -/
def firstThen : Nat := 1

/-- Condition positions `0, 2, 4, ...` strictly below the else position,
replicating the loop `for (i = firstCond(); i < elseArg(args); i = nextCond(i))`. -/
def condIdxs (n : Nat) : List Nat :=
  (List.range n).filter (fun i => i % 2 == 0 && i + 1 < n)

/-- Then positions `1, 3, 5, ...` strictly below the else position,
replicating the loop `for (i = firstThen(); i < elseArg(args); i = nextThen(i))`. -/
def thenIdxs (n : Nat) : List Nat :=
  (List.range n).filter (fun i => i % 2 == 1 && i + 1 < n)

/-- All branch positions: the then positions followed by the else position,
the traversal order used throughout the source. -/
def branchIdxs (n : Nat) : List Nat := thenIdxs n ++ [n - 1]

/-! ## Branch classifier predicates -/

/-- Source lines 43-54: some then/else branch type is nullable. -/
def hasNullableDataTypes (args : List DataType) : Bool :=
  (branchIdxs args.length).any (fun i => (args.getD i .nullType).isNullable)

/-- Source lines 56-67: some then/else branch type is the null type. -/
def hasNullDataTypes (args : List DataType) : Bool :=
  (branchIdxs args.length).any (fun i => (args.getD i .nullType).isNull)

/-- Modelled from the spec: `allArithmetic` — every then/else branch, after
unwrapping nullable, is a numeric type; null-type branches are absorbed (they
only force the nullable wrapper) and at least one branch must actually be
numeric. -/
def hasArithmeticBranches (args : List DataType) : Bool :=
  (branchIdxs args.length).all (fun i =>
    let t := args.getD i .nullType
    t.isNull || t.unwrapNullable.isNumeric) &&
  (branchIdxs args.length).any (fun i => (args.getD i .nullType).unwrapNullable.isNumeric)

/-- Modelled from the spec: `allArrays` — every then/else branch, after
unwrapping nullable, is an array type, with null-type branches passed through
(the source explicitly accepts them in `push_branch_arg`); at least one branch
must actually be an array. -/
def hasArrayBranches (args : List DataType) : Bool :=
  (branchIdxs args.length).all (fun i =>
    let t := args.getD i .nullType
    t.isNull || t.unwrapNullable.isArray) &&
  (branchIdxs args.length).any (fun i => (args.getD i .nullType).unwrapNullable.isArray)

/-- Modelled from the spec: `allIdentical` — every branch whose type is not the
null type has the same canonical type name as the first non-null branch (the
source comment at lines 413-415 returns the type of the first non-null branch
and admits null branches alongside it). -/
def hasIdenticalTypes (args : List DataType) : Bool :=
  match ((branchIdxs args.length).map (fun i => args.getD i .nullType)).filter
      (fun t => !t.isNull) with
  | [] => true
  | t :: rest => rest.all (fun u => u == t)

/-- Modelled from the spec: every branch is a fixed string, with null-type
branches absorbed, and at least one branch is a fixed string. -/
def hasFixedStrings (args : List DataType) : Bool :=
  (branchIdxs args.length).all (fun i =>
    let t := args.getD i .nullType
    t.isNull || t.isFixedString) &&
  (branchIdxs args.length).any (fun i => (args.getD i .nullType).isFixedString)

/-- Modelled from the spec: `allFixedStringsEqualLength` — additionally all the
fixed-string branches share one common length. -/
def hasFixedStringsOfIdenticalLength (args : List DataType) : Bool :=
  hasFixedStrings args &&
  (match (branchIdxs args.length).filterMap (fun i =>
      match args.getD i .nullType with
      | .fixedString len => some len
      | _ => none) with
   | [] => true
   | len :: rest => rest.all (fun m => m == len))

/-- Modelled from the spec: `allStrings` — every branch is the variable-length
string type, with null-type branches absorbed, and at least one branch is a
string. -/
def hasStrings (args : List DataType) : Bool :=
  (branchIdxs args.length).all (fun i =>
    let t := args.getD i .nullType
    t.isNull || t == DataType.string) &&
  (branchIdxs args.length).any (fun i => args.getD i .nullType == DataType.string)

/-- Source lines 282-304: every condition type must be UInt8, nullable UInt8,
or the null type (`observed_type` unwraps one nullable layer first). -/
def condTypesValid (args : List DataType) : Bool :=
  (condIdxs args.length).all (fun i =>
    let t := args.getD i .nullType
    let observed := if t.isNullable then t.unwrapNullable else t
    observed == DataType.num .uint8 || observed.isNull)

/-! ## Errors -/

/-- Error kinds of the engine (spec §7).  `fuelExhausted` is an artefact of the
fueled embedding of the recursive type resolver and is unreachable for any
fuel larger than the array nesting depth. -/
inductive ErrKind where
  | arityError
  | invalidConditionType
  | upscaleImpossible
  | incompatibleBranches
  | fixedStringLengthMismatch
  | noApplicableEvaluator
  | condSourceIllegalColumn
  | internalError
  | fuelExhausted
deriving DecidableEq, Repr

/-- A surfaced error: the context-free kind plus the context flag under which
it was re-labelled (`is_case_mode`); re-labelling never changes the kind. -/
abbrev CtxErr := ErrKind × Bool

/-! ## Type resolver -/

/-- Nullable wrapping pattern of the source
(`if (has_nullable_types || has_null_types) type = make_shared<DataTypeNullable>(type)`). -/
def wrapNullableIf (b : Bool) (t : DataType) : DataType :=
  if b then .nullable t else t

/-- Numeric kinds of the then/else branches after unwrapping nullable; null
branches contribute nothing. -/
def branchNumKinds (args : List DataType) : List NumKind :=
  (branchIdxs args.length).filterMap (fun i =>
    match (args.getD i .nullType).unwrapNullable with
    | .num k => some k
    | _ => none)

/-- Modelled from the spec: `Conditional::getReturnTypeForArithmeticArgs` —
delegate to the numeric-promotion collaborator for the minimal common numeric
type, wrap in nullable when any branch is nullable or null-typed, fail with
`UpscaleImpossible` when no common numeric type exists. -/
def getReturnTypeForArithmeticArgs (mode : Bool) (args : List DataType) :
    Except CtxErr DataType :=
  match commonNumericType (branchNumKinds args) with
  | some k =>
      .ok (wrapNullableIf (hasNullableDataTypes args || hasNullDataTypes args) (.num k))
  | none => .error (.upscaleImpossible, mode)

/-- Error-propagating map, standing in for sequenced fallible loops of the
source. -/
def mapExcept (g : α → Except ε β) : List α → Except ε (List β)
  | [] => .ok []
  | x :: xs =>
    match g x with
    | .error e => .error e
    | .ok y =>
      match mapExcept g xs with
      | .error e => .error e
      | .ok ys => .ok (y :: ys)

/-- Source lines 314-347: the recursive argument list for the all-arrays case;
condition types are passed through, null branches are passed through as-is,
and every other branch is replaced by its array element type (after unwrapping
nullable); a branch that is not an array raises the internal error of line 334. -/
def pushBranchArg (t : DataType) : Except ErrKind DataType :=
  if t.isNull then .ok t
  else
    match t.unwrapNullable with
    | .array e => .ok e
    | _ => .error .internalError

def buildArrayElemArgs (args : List DataType) : Except ErrKind (List DataType) :=
  match mapExcept (fun i =>
      if i % 2 == 0 then .ok (args.getD i .nullType)
      else pushBranchArg (args.getD i .nullType)) (List.range (args.length - 1)) with
  | .error e => .error e
  | .ok front =>
    match pushBranchArg (args.getD (args.length - 1) .nullType) with
    | .error e => .error e
    | .ok last => .ok (front ++ [last])

/-- Embedding of `FunctionMultiIf::getReturnTypeInternal` (source lines
270-439), merged with the contextual re-labelling boundary of
`getReturnTypeImpl`: the result type or a context-tagged error kind.  The
`fuel` argument bounds the array-element recursion of line 353. -/
def getReturnTypeImpl (mode : Bool) : Nat → List DataType → Except CtxErr DataType
  | 0, _ => .error (.fuelExhausted, mode)
  | fuel + 1, args =>
    if !hasValidArgCount args then .error (.arityError, mode)
    else if !condTypesValid args then .error (.invalidConditionType, mode)
    else
      let hasN := hasNullableDataTypes args
      let hasNu := hasNullDataTypes args
      if hasArithmeticBranches args then getReturnTypeForArithmeticArgs mode args
      else if hasArrayBranches args then
        match buildArrayElemArgs args with
        | .error k => .error (k, mode)
        | .ok newArgs =>
          match getReturnTypeImpl mode fuel newArgs with
          | .error e => .error e
          | .ok eltType =>
            let eltType := if eltType.isNullable then eltType.unwrapNullable else eltType
            .ok (wrapNullableIf (hasN || hasNu) (.array eltType))
      else if !hasIdenticalTypes args then
        if hasFixedStrings args then
          if !hasFixedStringsOfIdenticalLength args then
            .error (.fixedStringLengthMismatch, mode)
          else
            match args.getD firstThen .nullType with
            | .fixedString len => .ok (wrapNullableIf (hasN || hasNu) (.fixedString len))
            | _ => .error (.internalError, mode)
        else if hasStrings args then .ok (wrapNullableIf (hasN || hasNu) .string)
        else .error (.incompatibleBranches, mode)
      else
        match (branchIdxs args.length).find?
            (fun i => !(args.getD i .nullType).isNull) with
        | some i =>
          let t := args.getD i .nullType
          .ok (if t.isNullable then t else if hasN || hasNu then .nullable t else t)
        | none => .ok .nullType

/-! ## Columns and blocks -/

/-- Scalar payload values; their internal structure is irrelevant to the
engine, which only copies and compares them. -/
abbrev Field := Nat

/-- Column model: a missing column pointer, a null-type constant column, a
constant column, a full column, or a nullable column wrapping an inner column
plus a null bitmap. -/
inductive Column where
  | absent
  | nullCol (rows : Nat)
  | constCol (ty : DataType) (rows : Nat) (v : Field)
  | vecCol (ty : DataType) (vals : List Field)
  | nullableCol (inner : Column) (nullMap : List Bool)
deriving DecidableEq, Repr

/-- Model of `IColumn::isNull`. -/
def Column.isNull : Column → Bool
  | .nullCol _ => true
  | _ => false

/-- Model of `IColumn::isNullable`. -/
def Column.isNullable : Column → Bool
  | .nullableCol _ _ => true
  | _ => false

/-- Model of `IColumn::isConst`; the null-type constant column counts as
constant. -/
def Column.isConst : Column → Bool
  | .constCol _ _ _ => true
  | .nullCol _ => true
  | _ => false

def Column.size : Column → Nat
  | .absent => 0
  | .nullCol r => r
  | .constCol _ r _ => r
  | .vecCol _ vs => vs.length
  | .nullableCol inner _ => inner.size

/-- Model of `ColumnNullable::getNullValuesByteMap` (empty for non-nullable
columns, on which the source never calls it). -/
def Column.nullMapOf : Column → List Bool
  | .nullableCol _ nm => nm
  | _ => []

/-- Model of `ColumnNullable::isNullAt`. -/
def Column.isNullAt (c : Column) (row : Nat) : Bool :=
  c.nullMapOf.getD row false

/-- Model of `column->get(0, sample)`: the first value of the column. -/
def Column.get0 : Column → Field
  | .constCol _ _ v => v
  | .vecCol _ vs => vs.getD 0 0
  | .nullableCol inner _ => inner.get0
  | _ => 0

/-- Model of `ColumnNullable::getNestedColumn`; the identity elsewhere. -/
def Column.innerCol : Column → Column
  | .nullableCol inner _ => inner
  | c => c

/-- One block entry: a column together with its data type
(`ColumnWithTypeAndName`, names ignored). -/
structure ColTN where
  column : Column
  type : DataType
deriving DecidableEq, Repr

def defaultCTN : ColTN := ⟨.absent, .nullType⟩

/-- A batch: an ordered sequence of typed columns. -/
abbrev Block := List ColTN

/-- Model of `IDataType::createConstColumn`; for the null data type this is
`DataTypeNull::createConstColumn`, producing a null-type constant column. -/
def DataType.createConstColumn (t : DataType) (rows : Nat) (v : Field) : Column :=
  match t with
  | .nullType => .nullCol rows
  | ty => .constCol ty rows v

/-- Model of `Block::rowsInFirstColumn`. -/
def rowsInFirstColumn (block : Block) : Nat :=
  (block.headD defaultCTN).column.size

/-- Replace the column stored at position `i`, keeping type and name: the
shape of every write `block.getByPosition(i).column = c` in the source. -/
def setColumnAt (block : Block) (i : Nat) (c : Column) : Block :=
  block.set i { block.getD i defaultCTN with column := c }

/-- Source lines 22-41: some then/else branch column of the block is nullable
or null (the column pointer must also be present). -/
def blockHasNullableBranches (block : Block) (args : List Nat) : Bool :=
  (branchIdxs args.length).any (fun i =>
    let c := (block.getD (args.getD i 0) defaultCTN).column
    c != Column.absent && (c.isNullable || c.isNull))

/-- Modelled from the spec (§4.4 step 2a): `createBlockWithNestedColumns` —
a copy of the block in which every column at a listed position that is
nullable is replaced by its inner column with the nullable type layer
stripped; null-type columns and all other columns pass through unchanged. -/
def createBlockWithNestedColumns (block : Block) (argsToTransform : List Nat) : Block :=
  block.enum.map (fun pe =>
    if argsToTransform.contains pe.1 && pe.2.column.isNullable then
      { column := pe.2.column.innerCol, type := pe.2.type.unwrapNullable }
    else pe.2)

/-! ## Condition source (external collaborator) -/

/-- Modelled from the spec: the condition source reads a boolean from a
condition column, transparently handling constant and per-row UInt8 columns;
a null condition is treated as always false; any other column is rejected
(the source must be `ColumnUInt8` or `ColumnConstUInt8`).  This reads row 0,
the only row the trivial path consults. -/
def condSource0 : Column → Except ErrKind Bool
  | .nullCol _ => .ok false
  | .constCol (.num .uint8) _ v => .ok (v != 0)
  | .vecCol (.num .uint8) vs => .ok (vs.getD 0 0 != 0)
  | _ => .error .condSourceIllegalColumn

/-- Total view of `condSource0` on columns it accepts (false on rejects),
used only to state theorems about the selected branch. -/
def condTrue0 (c : Column) : Bool :=
  match condSource0 c with
  | .ok b => b
  | .error _ => false

/-- Shape of a condition column the trivial path can consume: a constant
UInt8 column or a null-type column. -/
def condConstColOk : Column → Bool
  | .constCol (.num .uint8) _ _ => true
  | .nullCol _ => true
  | _ => false

/-! ## Trivial constant-condition fast path -/

/-- First loop of `performTrivialCase` (source lines 449-486): scan the branch
positions; skip null-type branches; record the type and a sample value of the
first non-null branch; fail (outer `none`, the `return false` of line 468)
when a later non-null branch has a different type name. -/
def scanBranches (block : Block) (args : List Nat) :
    List Nat → Option (DataType × Field) → Option (Option (DataType × Field))
  | [], acc => some acc
  | i :: rest, acc =>
    let e := block.getD (args.getD i 0) defaultCTN
    if e.type.isNull then scanBranches block args rest acc
    else
      match acc with
      | none => scanBranches block args rest (some (e.type, e.column.get0))
      | some ts =>
        if e.type == ts.1 then scanBranches block args rest (some ts) else none

/-- The `make_result` lambda of `performTrivialCase` (source lines 515-525):
write the selected branch column (materialised as a constant of the common
type when the selected column is null-typed) at the result position, and,
when tracking is requested, a constant UInt16 tracker holding the selected
block position. -/
def trivialMakeResult (block : Block) (ty : DataType) (sample : Field) (rc : Nat)
    (result tracker : Nat) (p : Nat) : Block :=
  if tracker != result then
    setColumnAt
      (setColumnAt block result
        (if (block.getD p defaultCTN).column.isNull then ty.createConstColumn rc sample
         else (block.getD p defaultCTN).column))
      tracker (.constCol (.num .uint16) rc p)
  else
    setColumnAt block result
      (if (block.getD p defaultCTN).column.isNull then ty.createConstColumn rc sample
       else (block.getD p defaultCTN).column)

/-- Embedding of `FunctionMultiIf::performTrivialCase` (source lines 445-540).
`ok none` models `return false` (callers must try the general evaluators);
`ok (some b)` models `return true` with the mutated block `b`. -/
def performTrivialCase (block : Block) (args : List Nat) (result tracker : Nat) :
    Except ErrKind (Option Block) :=
  match scanBranches block args (branchIdxs args.length) none with
  | none => .ok none
  | some none =>
    .ok (some (setColumnAt block result (.nullCol (rowsInFirstColumn block))))
  | some (some ts) =>
    if !(condIdxs args.length).all
        (fun i => (block.getD (args.getD i 0) defaultCTN).column.isConst) then
      .ok none
    else
      match mapExcept
          (fun i => condSource0 (block.getD (args.getD i 0) defaultCTN).column)
          (condIdxs args.length) with
      | .error k => .error k
      | .ok vals =>
        match ((condIdxs args.length).zip vals).find? (fun iv => iv.2) with
        | some iv =>
          .ok (some (trivialMakeResult block ts.1 ts.2 (rowsInFirstColumn block)
            result tracker (args.getD (iv.1 + 1) 0)))
        | none =>
          .ok (some (trivialMakeResult block ts.1 ts.2 (rowsInFirstColumn block)
            result tracker (args.getD (elseArg args) 0)))

/-! ## Null-bitmap reconstruction -/

/-- Source lines 218-225 and 227-235: the per-distinct-column flag tables,
sized by the number of arguments (`args.size()`) and written at index `arg`
for every argument position `arg`. -/
def buildFlagTable (block : Block) (args : List Nat) (p : Column → Bool) : List Bool :=
  args.foldl (fun m a => m.set a (p (block.getD a defaultCTN).column))
    (List.replicate args.length false)

/-- Size of the flag tables of source lines 219 and 229. -/
def trackerTableSize (args : List Nat) : Nat := args.length

/-- Every index used to access the flag tables: each argument position during
table construction (lines 220-235) and each tracker cell value during the
per-row loop (lines 241-259). -/
def trackerTableAccessIndices (args trackerData : List Nat) : List Nat :=
  args ++ trackerData

/-- Source lines 192-262: reconstruct the null bitmap of the result column
from the tracker column.  A constant tracker names one source column: all-one
for a null-type source, a copy of its bitmap for a nullable source, all-zero
otherwise.  A per-row tracker is resolved through the precomputed flag
tables.  Any other tracker column is the internal error of line 262. -/
def buildResultNullMap (block : Block) (args : List Nat) (rowCount : Nat)
    (trackerCol : Column) : Except ErrKind (List Bool) :=
  match trackerCol with
  | .constCol (.num .uint16) _ pos =>
    let origin := (block.getD pos defaultCTN).column
    if origin.isNull then .ok (List.replicate rowCount true)
    else if origin.isNullable then .ok origin.nullMapOf
    else .ok (List.replicate rowCount false)
  | .vecCol (.num .uint16) data =>
    let nullableColsMap := buildFlagTable block args Column.isNullable
    let nullColsMap := buildFlagTable block args Column.isNull
    .ok ((List.range rowCount).map (fun row =>
      let pos := data.getD row 0
      if nullColsMap.getD pos false then true
      else if nullableColsMap.getD pos false then
        (block.getD pos defaultCTN).column.isNullAt row
      else false))
  | _ => .error .internalError

/-! ## Orchestrator -/

/-- The three external payload evaluators (numeric, string, string-array),
composed into one black box with the shared interface of spec §6:
`ok none` means no evaluator was applicable, `ok (some b)` means success with
the mutated block `b`, and an error carries the block state at the throw. -/
def PayloadOracle : Type :=
  Block → List Nat → Nat → Nat → Except (ErrKind × Block) (Option Block)

/-- The evaluator chain of `perform_multi_if` (source lines 119-137): the
trivial path, then the payload evaluators, then the illegal-column error. -/
def performMultiIfChain (oracle : PayloadOracle) (block : Block) (args : List Nat)
    (result tracker : Nat) : Except (ErrKind × Block) Block :=
  match performTrivialCase block args result tracker with
  | .error k => .error (k, block)
  | .ok (some b) => .ok b
  | .ok none =>
    match oracle block args result tracker with
    | .error e => .error e
    | .ok (some b) => .ok b
    | .ok none => .error (.noApplicableEvaluator, block)

/-- The nested scratch block of the nullable path (source lines 159-173): the
block with every branch column unwrapped, plus one appended placeholder
tracker column; the tracker position is the length of the unwrapped block. -/
def nestedBlockOf (block : Block) (args : List Nat) : Block :=
  createBlockWithNestedColumns block ((branchIdxs args.length).map (fun i => args.getD i 0)) ++
    [⟨Column.absent, DataType.num .uint16⟩]

/-- Tracker position used by the nullable path. -/
def trackerPosOf (block : Block) (args : List Nat) : Nat :=
  (createBlockWithNestedColumns block
    ((branchIdxs args.length).map (fun i => args.getD i 0))).length

/-- Embedding of `FunctionMultiIf::executeImpl` (source lines 117-268).
Errors carry the context tag and the state of the original block at the
throw; the scratch block of the nullable path is discarded on failure, so
those errors carry the untouched original block. -/
def executeImpl (mode : Bool) (oracle : PayloadOracle) (block : Block)
    (args : List Nat) (result : Nat) : Except (CtxErr × Block) Block :=
  if !blockHasNullableBranches block args then
    match performMultiIfChain oracle block args result result with
    | .error (k, b) => .error ((k, mode), b)
    | .ok b => .ok b
  else
    match performMultiIfChain oracle (nestedBlockOf block args) args result
        (trackerPosOf block args) with
    | .error (k, _) => .error ((k, mode), block)
    | .ok nested2 =>
      if ((nested2.getD result defaultCTN).column).isNull then
        .ok (setColumnAt block result (nested2.getD result defaultCTN).column)
      else
        match buildResultNullMap block args (rowsInFirstColumn block)
            ((nested2.getD (trackerPosOf block args) defaultCTN).column) with
        | .error k =>
          .error ((k, mode),
            setColumnAt block result
              (.nullableCol (nested2.getD result defaultCTN).column []))
        | .ok nm =>
          .ok (setColumnAt
            (setColumnAt block result
              (.nullableCol (nested2.getD result defaultCTN).column []))
            result (.nullableCol (nested2.getD result defaultCTN).column nm))

/-! ## FunctionCaseWithoutExpr (source lines 745-758) -/

/-- Source lines 745-750: the CASE-without-expression return type is computed
by a `FunctionMultiIf` with case mode enabled. -/
def caseWithoutExprGetReturnType (fuel : Nat) (args : List DataType) :
    Except CtxErr DataType :=
  getReturnTypeImpl true fuel args

/-- Source lines 752-758: a CASE construction without any expression is a mere
multiIf with case mode enabled. -/
def caseWithoutExprExecuteImpl (oracle : PayloadOracle) (block : Block)
    (args : List Nat) (result : Nat) : Except (CtxErr × Block) Block :=
  executeImpl true oracle block args result

/-! ## List helper lemmas -/

theorem getD_set_self (l : List α) (i : Nat) (v d : α) (h : i < l.length) :
    (l.set i v).getD i d = v := by
  simp [List.getD_eq_getElem?_getD, List.getElem?_set, h]

theorem getD_set_ne (l : List α) (i j : Nat) (v d : α) (h : i ≠ j) :
    (l.set i v).getD j d = l.getD j d := by
  simp [List.getD_eq_getElem?_getD, List.getElem?_set_ne h]

theorem getD_append_left (l m : List α) (i : Nat) (d : α) (h : i < l.length) :
    (l ++ m).getD i d = l.getD i d := by
  simp [List.getD_eq_getElem?_getD, List.getElem?_append, h]

theorem foldl_set_length (f : Nat → Bool) (l : List Nat) (m : List Bool) :
    (l.foldl (fun acc a => acc.set a (f a)) m).length = m.length := by
  induction l generalizing m with
  | nil => rfl
  | cons a rest ih => simp only [List.foldl_cons]; rw [ih]; simp

theorem foldl_set_getD_not_mem (f : Nat → Bool) (l : List Nat) (m : List Bool)
    (pos : Nat) (d : Bool) (hpos : pos ∉ l) :
    (l.foldl (fun acc a => acc.set a (f a)) m).getD pos d = m.getD pos d := by
  induction l generalizing m with
  | nil => rfl
  | cons a rest ih =>
    simp only [List.foldl_cons]
    rw [ih (m.set a (f a)) (fun h => hpos (List.mem_cons_of_mem _ h))]
    exact getD_set_ne m a pos (f a) d (fun h => hpos (h ▸ List.mem_cons_self a rest))

theorem foldl_set_getD_mem (f : Nat → Bool) (l : List Nat) (m : List Bool)
    (pos : Nat) (d : Bool) (hmem : pos ∈ l) (hlt : pos < m.length) :
    (l.foldl (fun acc a => acc.set a (f a)) m).getD pos d = f pos := by
  induction l generalizing m with
  | nil => exact absurd hmem (List.not_mem_nil pos)
  | cons a rest ih =>
    simp only [List.foldl_cons]
    by_cases hr : pos ∈ rest
    · exact ih (m.set a (f a)) hr (by simpa using hlt)
    · have hpa : pos = a := by
        rcases List.mem_cons.mp hmem with h | h
        · exact h
        · exact absurd h hr
      subst hpa
      rw [foldl_set_getD_not_mem f rest (m.set pos (f pos)) pos d hr]
      exact getD_set_self m pos (f pos) d hlt

/-- Lookup in a flag table of the nullable path: whenever the looked-up
position is an argument position and is within the table bounds, the table
reports the flag of the block column at that position. -/
theorem buildFlagTable_getD (block : Block) (args : List Nat) (p : Column → Bool)
    (pos : Nat) (hmem : pos ∈ args) (hlt : pos < args.length) :
    (buildFlagTable block args p).getD pos false =
      p (block.getD pos defaultCTN).column := by
  unfold buildFlagTable
  exact foldl_set_getD_mem (fun a => p (block.getD a defaultCTN).column) args
    (List.replicate args.length false) pos false hmem (by simpa using hlt)

/-! ## Block helper lemmas -/

theorem Column.size_innerCol (c : Column) : c.innerCol.size = c.size := by
  cases c <;> rfl

theorem setColumnAt_getD_self (b : Block) (i : Nat) (c : Column) (h : i < b.length) :
    (setColumnAt b i c).getD i defaultCTN = { b.getD i defaultCTN with column := c } := by
  unfold setColumnAt
  exact getD_set_self b i _ defaultCTN h

theorem setColumnAt_getD_ne (b : Block) (i j : Nat) (c : Column) (h : i ≠ j) :
    (setColumnAt b i c).getD j defaultCTN = b.getD j defaultCTN := by
  unfold setColumnAt
  exact getD_set_ne b i j _ defaultCTN h

theorem createBlockWithNestedColumns_length (block : Block) (ats : List Nat) :
    (createBlockWithNestedColumns block ats).length = block.length := by
  simp [createBlockWithNestedColumns]

theorem createBlockWithNestedColumns_getD (block : Block) (ats : List Nat)
    (p : Nat) (hp : p < block.length) :
    (createBlockWithNestedColumns block ats).getD p defaultCTN =
      (if ats.contains p && (block.getD p defaultCTN).column.isNullable then
        { column := (block.getD p defaultCTN).column.innerCol,
          type := (block.getD p defaultCTN).type.unwrapNullable }
      else block.getD p defaultCTN) := by
  simp [createBlockWithNestedColumns, List.getD_eq_getElem?_getD, List.getElem?_map,
    List.getElem?_enum, List.getElem?_eq_getElem hp]

theorem rowsInFirstColumn_nested (block : Block) (ats : List Nat) (ty : DataType) :
    rowsInFirstColumn (createBlockWithNestedColumns block ats ++ [⟨Column.absent, ty⟩]) =
      rowsInFirstColumn block := by
  cases block with
  | nil => rfl
  | cons b rest =>
    simp only [createBlockWithNestedColumns, List.enum_cons, List.map_cons,
      List.cons_append, rowsInFirstColumn, List.headD_cons]
    split
    · exact Column.size_innerCol b.column
    · rfl

/-! ## C10 -/

/-- C10: for every block, argument list and output position,
`FunctionCaseWithoutExpr` return-type computation and execution produce
exactly the same result (and the same errors) as `FunctionMultiIf` with case
mode enabled on the same inputs. -/
theorem caseWithoutExpr_equiv_multiIf_case_mode :
    (∀ fuel args, caseWithoutExprGetReturnType fuel args = getReturnTypeImpl true fuel args) ∧
    (∀ oracle block args result,
      caseWithoutExprExecuteImpl oracle block args result =
        executeImpl true oracle block args result) :=
  ⟨fun _ _ => rfl, fun _ _ _ _ => rfl⟩

/-! ## C4 -/

/-- C4: the claim that every flag-table access index stays below the table
size fails.  The tables are sized by the number of arguments (source lines
219 and 229) but indexed by argument positions and tracker values, which are
block positions: with arguments at block positions 2, 3, 4 the construction
loop already writes at index 4 of a 3-entry table — in the C++ source an
out-of-bounds access.  In this bounded model the out-of-bounds write is
dropped and the out-of-bounds read returns the default, so the reconstructed
bitmap reports 0 for a row whose tracked source column has its own null bit
set to 1. -/
theorem multiIf_tracker_table_out_of_bounds :
    ((trackerTableAccessIndices [2, 3, 4] [4]).all
      (fun i => i < trackerTableSize [2, 3, 4])) = false ∧
    buildResultNullMap
      [⟨Column.absent, DataType.nullType⟩,
       ⟨Column.absent, DataType.nullType⟩,
       ⟨Column.vecCol (.num .uint8) [1], DataType.num .uint8⟩,
       ⟨Column.vecCol (.num .int32) [5], DataType.num .int32⟩,
       ⟨Column.nullableCol (.vecCol (.num .int32) [9]) [true], DataType.nullable (.num .int32)⟩]
      [2, 3, 4] 1 (Column.vecCol (.num .uint16) [4]) = .ok [false] ∧
    (([⟨Column.absent, DataType.nullType⟩,
       ⟨Column.absent, DataType.nullType⟩,
       ⟨Column.vecCol (.num .uint8) [1], DataType.num .uint8⟩,
       ⟨Column.vecCol (.num .int32) [5], DataType.num .int32⟩,
       ⟨Column.nullableCol (.vecCol (.num .int32) [9]) [true], DataType.nullable (.num .int32)⟩] :
        Block).getD 4 defaultCTN).column.isNullAt 0 = true := by
  refine ⟨by decide, by rfl, by decide⟩

/-! ## C7 -/

theorem elseIdx_mem_branchIdxs (n : Nat) : n - 1 ∈ branchIdxs n := by
  unfold branchIdxs
  exact List.mem_append_right _ (List.mem_singleton.mpr rfl)

theorem scanBranches_all_null (block : Block) (args : List Nat) (idxs : List Nat)
    (h : ∀ i ∈ idxs, (block.getD (args.getD i 0) defaultCTN).type.isNull = true) :
    scanBranches block args idxs none = some none := by
  induction idxs with
  | nil => rfl
  | cons a rest ih =>
    unfold scanBranches
    rw [if_pos (h a (List.mem_cons_self a rest))]
    exact ih (fun i hi => h i (List.mem_cons_of_mem a hi))

/-- C7: when every then/else branch of the argument list is the null type,
evaluation writes a null-type constant column of the batch row count at the
output position and returns it verbatim (not nullable-wrapped); the result
does not depend on the payload-evaluator oracle (no per-row evaluator is
invoked), and nothing is assumed about the condition columns, constant or
not. -/
theorem multiIf_all_null_branches_execution (mode : Bool) (oracle : PayloadOracle)
    (block : Block) (args : List Nat) (result : Nat)
    (hres : result < block.length)
    (hpos : ∀ i ∈ branchIdxs args.length, args.getD i 0 < block.length)
    (hb : ∀ i ∈ branchIdxs args.length,
      (block.getD (args.getD i 0) defaultCTN).column =
        Column.nullCol (rowsInFirstColumn block) ∧
      (block.getD (args.getD i 0) defaultCTN).type = DataType.nullType) :
    executeImpl mode oracle block args result =
      .ok (setColumnAt block result (Column.nullCol (rowsInFirstColumn block))) := by
  have hmem := elseIdx_mem_branchIdxs args.length
  have hnullable : blockHasNullableBranches block args = true := by
    unfold blockHasNullableBranches
    rw [List.any_eq_true]
    refine ⟨args.length - 1, hmem, ?_⟩
    rw [(hb _ hmem).1]
    rfl
  unfold executeImpl
  rw [hnullable]
  simp only [Bool.not_true, Bool.false_eq_true, if_false]
  have hlen : (createBlockWithNestedColumns block
      ((branchIdxs args.length).map (fun i => args.getD i 0))).length = block.length :=
    createBlockWithNestedColumns_length block _
  have hrows : rowsInFirstColumn (nestedBlockOf block args) = rowsInFirstColumn block :=
    rowsInFirstColumn_nested block _ (.num .uint16)
  have hbn : ∀ i ∈ branchIdxs args.length,
      ((nestedBlockOf block args).getD (args.getD i 0) defaultCTN).type.isNull = true := by
    intro i hi
    have hlt : args.getD i 0 < block.length := hpos i hi
    have h1 : (nestedBlockOf block args).getD (args.getD i 0) defaultCTN =
        (createBlockWithNestedColumns block
          ((branchIdxs args.length).map (fun j => args.getD j 0))).getD
          (args.getD i 0) defaultCTN :=
      getD_append_left _ _ _ defaultCTN (by rw [hlen]; exact hlt)
    rw [h1, createBlockWithNestedColumns_getD block _ _ hlt, (hb i hi).1]
    simp only [Column.isNullable, Bool.and_false, Bool.false_eq_true, if_false]
    rw [(hb i hi).2]
    rfl
  have htc : performTrivialCase (nestedBlockOf block args) args result
      (trackerPosOf block args) =
      .ok (some (setColumnAt (nestedBlockOf block args) result
        (Column.nullCol (rowsInFirstColumn block)))) := by
    unfold performTrivialCase
    rw [scanBranches_all_null (nestedBlockOf block args) args (branchIdxs args.length) hbn,
      hrows]
  unfold performMultiIfChain
  rw [htc]
  have hresT : result < (nestedBlockOf block args).length := by
    unfold nestedBlockOf
    rw [List.length_append, hlen]
    exact Nat.lt_succ_of_lt hres
  have hsrc : ((setColumnAt (nestedBlockOf block args) result
      (Column.nullCol (rowsInFirstColumn block))).getD result defaultCTN).column =
      Column.nullCol (rowsInFirstColumn block) := by
    rw [setColumnAt_getD_self (nestedBlockOf block args) result _ hresT]
  simp only [hsrc, Column.isNull, if_true]

/-- Witness for C7: a concrete batch with one condition and two null-type
branches evaluates to a verbatim null-type constant column, with a trivial
oracle. -/
theorem multiIf_all_null_branches_execution_witness :
    executeImpl false (fun _ _ _ _ => .ok none)
      [⟨Column.vecCol (.num .uint8) [1, 0], DataType.num .uint8⟩,
       ⟨Column.nullCol 2, DataType.nullType⟩,
       ⟨Column.nullCol 2, DataType.nullType⟩,
       ⟨Column.absent, DataType.nullType⟩] [0, 1, 2] 3 =
    .ok (setColumnAt
      [⟨Column.vecCol (.num .uint8) [1, 0], DataType.num .uint8⟩,
       ⟨Column.nullCol 2, DataType.nullType⟩,
       ⟨Column.nullCol 2, DataType.nullType⟩,
       ⟨Column.absent, DataType.nullType⟩] 3
      (Column.nullCol (rowsInFirstColumn
        [⟨Column.vecCol (.num .uint8) [1, 0], DataType.num .uint8⟩,
         ⟨Column.nullCol 2, DataType.nullType⟩,
         ⟨Column.nullCol 2, DataType.nullType⟩,
         ⟨Column.absent, DataType.nullType⟩]))) :=
  multiIf_all_null_branches_execution false (fun _ _ _ _ => .ok none) _ [0, 1, 2] 3
    (by decide) (by decide) (by decide)

/-! ## C6 -/

theorem wrapNullableIf_isNullable (b : Bool) (t : DataType) :
    (wrapNullableIf b t).isNullable = (b || t.isNullable) := by
  cases b <;> simp [wrapNullableIf, DataType.isNullable]

/-- C6: for an argument list whose then/else branches are neither
all-arithmetic nor all-arrays and share identical canonical types, type
resolution returns the type of the first non-null then/else branch, wrapped
in nullable iff some branch is nullable or null-typed and that first branch
is not already nullable; when every branch is the null type it returns the
null type. -/
theorem multiIf_identical_types_resolution (mode : Bool) (fuel : Nat)
    (args : List DataType)
    (hv : hasValidArgCount args = true)
    (hc : condTypesValid args = true)
    (hA : hasArithmeticBranches args = false)
    (hR : hasArrayBranches args = false)
    (hI : hasIdenticalTypes args = true) :
    (∀ j, (branchIdxs args.length).find? (fun i => !(args.getD i .nullType).isNull) = some j →
      getReturnTypeImpl mode (fuel + 1) args =
        .ok (if (args.getD j .nullType).isNullable then args.getD j .nullType
             else if hasNullableDataTypes args || hasNullDataTypes args then
               .nullable (args.getD j .nullType)
             else args.getD j .nullType)) ∧
    ((branchIdxs args.length).find? (fun i => !(args.getD i .nullType).isNull) = none →
      getReturnTypeImpl mode (fuel + 1) args = .ok .nullType) := by
  constructor
  · intro j hj
    simp only [getReturnTypeImpl, hv, hc, hA, hR, hI, Bool.not_true, Bool.not_false,
      Bool.false_eq_true, Bool.true_eq_false, if_false, if_true, hj]
  · intro hj
    simp only [getReturnTypeImpl, hv, hc, hA, hR, hI, Bool.not_true, Bool.not_false,
      Bool.false_eq_true, Bool.true_eq_false, if_false, if_true, hj]

/-- Witness for C6: branches String, Null, String resolve to the type of the
first non-null branch wrapped in nullable (a null branch is present and
String is not already nullable). -/
theorem multiIf_identical_types_resolution_witness :
    getReturnTypeImpl false 1 [.num .uint8, .string, .num .uint8, .nullType, .string] =
      .ok (.nullable .string) := by
  have h := (multiIf_identical_types_resolution false 0
    [.num .uint8, .string, .num .uint8, .nullType, .string]
    (by decide) (by decide) (by decide) (by decide) (by decide)).1 1 (by decide)
  simpa using h

/-! ## C8 -/

/-- C8: when the then/else branches are not all identical, not all arithmetic,
not all arrays, and are fixed-strings: with one common length the resolver
returns the fixed-string type of that length, nullable-wrapped exactly when
some branch is nullable or null-typed; with disagreeing lengths it fails with
the fixed-string length mismatch error. -/
theorem multiIf_fixed_string_resolution (mode : Bool) (fuel : Nat)
    (args : List DataType)
    (hv : hasValidArgCount args = true)
    (hc : condTypesValid args = true)
    (hA : hasArithmeticBranches args = false)
    (hR : hasArrayBranches args = false)
    (hI : hasIdenticalTypes args = false)
    (hF : hasFixedStrings args = true) :
    (hasFixedStringsOfIdenticalLength args = false →
      getReturnTypeImpl mode (fuel + 1) args = .error (.fixedStringLengthMismatch, mode)) ∧
    (hasFixedStringsOfIdenticalLength args = true →
      ∀ len, args.getD firstThen .nullType = .fixedString len →
        getReturnTypeImpl mode (fuel + 1) args =
          .ok (wrapNullableIf (hasNullableDataTypes args || hasNullDataTypes args)
            (.fixedString len)) ∧
        (wrapNullableIf (hasNullableDataTypes args || hasNullDataTypes args)
            (.fixedString len)).isNullable =
          (hasNullableDataTypes args || hasNullDataTypes args)) := by
  constructor
  · intro hlen
    simp only [getReturnTypeImpl, hv, hc, hA, hR, hI, hF, hlen, Bool.not_true,
      Bool.not_false, Bool.false_eq_true, Bool.true_eq_false, if_false, if_true]
  · intro hlen len hfirst
    refine ⟨?_, ?_⟩
    · simp only [getReturnTypeImpl, hv, hc, hA, hR, hI, hF, hlen, hfirst, Bool.not_true,
        Bool.not_false, Bool.false_eq_true, Bool.true_eq_false, if_false, if_true]
    · rw [wrapNullableIf_isNullable]
      simp [DataType.isNullable]

/-- Witness for C8: fixed-string branches of lengths 3 and 5 fail with the
length mismatch error. -/
theorem multiIf_fixed_string_resolution_witness :
    getReturnTypeImpl false 1 [.num .uint8, .fixedString 3, .fixedString 5] =
      .error (.fixedStringLengthMismatch, false) :=
  (multiIf_fixed_string_resolution false 0 [.num .uint8, .fixedString 3, .fixedString 5]
    (by decide) (by decide) (by decide) (by decide) (by decide) (by decide)).1 (by decide)

/-! ## C2: properties of the numeric promotion collaborator -/

theorem commonNumericType_eq (ts : List NumKind) (hne : ts.isEmpty = false) :
    commonNumericType ts =
      (if ts.any NumKind.isFloat then [NumKind.float32, NumKind.float64]
       else if ts.any NumKind.isSigned then
         [NumKind.int8, NumKind.int16, NumKind.int32, NumKind.int64]
       else [NumKind.uint8, NumKind.uint16, NumKind.uint32, NumKind.uint64]).find?
        (fun c => ts.all (fun b => canRep c b)) := by
  simp [commonNumericType, hne]

theorem exists_fail_of_all_false (ts : List NumKind) (c : NumKind)
    (h : ts.all (fun b => canRep c b) = false) : ∃ b ∈ ts, canRep c b = false := by
  obtain ⟨b, hb, hb2⟩ := List.all_eq_false.mp h
  exact ⟨b, hb, by simpa using hb2⟩

theorem min_rank_f32 : ∀ u bf : NumKind, bf.isFloat = true →
    canRep u bf = true → NumKind.rank .float32 ≤ u.rank := by decide

theorem min_rank_f64 : ∀ u bf b32 : NumKind, bf.isFloat = true →
    canRep .float32 b32 = false → canRep u bf = true → canRep u b32 = true →
    NumKind.rank .float64 ≤ u.rank := by decide

theorem min_rank_i8 : ∀ u s : NumKind, s.isSigned = true →
    canRep u s = true → NumKind.rank .int8 ≤ u.rank := by decide

theorem min_rank_i16 : ∀ u s b8 : NumKind, s.isSigned = true → b8.isFloat = false →
    canRep .int8 b8 = false → canRep u s = true → canRep u b8 = true →
    NumKind.rank .int16 ≤ u.rank := by decide

theorem min_rank_i32 : ∀ u s b16 : NumKind, s.isSigned = true → b16.isFloat = false →
    canRep .int16 b16 = false → canRep u s = true → canRep u b16 = true →
    NumKind.rank .int32 ≤ u.rank := by decide

theorem min_rank_i64 : ∀ u s b32 : NumKind, s.isSigned = true → b32.isFloat = false →
    canRep .int32 b32 = false → canRep .int64 b32 = true →
    canRep u s = true → canRep u b32 = true →
    NumKind.rank .int64 ≤ u.rank := by decide

theorem min_rank_u16 : ∀ u b8 : NumKind, b8.isFloat = false → b8.isSigned = false →
    canRep .uint8 b8 = false → canRep u b8 = true →
    NumKind.rank .uint16 ≤ u.rank := by decide

theorem min_rank_u32 : ∀ u b16 : NumKind, b16.isFloat = false → b16.isSigned = false →
    canRep .uint16 b16 = false → canRep u b16 = true →
    NumKind.rank .uint32 ≤ u.rank := by decide

theorem min_rank_u64 : ∀ u b32 : NumKind, b32.isFloat = false → b32.isSigned = false →
    canRep .uint32 b32 = false → canRep u b32 = true →
    NumKind.rank .uint64 ≤ u.rank := by decide

theorem none_float_family : ∀ u bf b32 b64 : NumKind, bf.isFloat = true →
    canRep .float32 b32 = false → canRep .float64 b64 = false →
    canRep u bf = false ∨ canRep u b32 = false ∨ canRep u b64 = false := by decide

theorem none_signed_family : ∀ u s b64 : NumKind, s.isSigned = true →
    b64.isFloat = false → canRep .int64 b64 = false →
    canRep u s = false ∨ canRep u b64 = false := by decide

theorem canRep_uint64_uns : ∀ b : NumKind, b.isFloat = false → b.isSigned = false →
    canRep .uint64 b = true := by decide

/-- The promotion collaborator is sound and minimal: a returned kind
represents every input losslessly and has the least promotion rank among all
kinds that do. -/
theorem commonNumericType_represents_and_minimal (ts : List NumKind) (k : NumKind)
    (h : commonNumericType ts = some k) :
    (∀ b ∈ ts, canRep k b = true) ∧
    (∀ u, (∀ b ∈ ts, canRep u b = true) → k.rank ≤ u.rank) := by
  have hne : ts.isEmpty = false := by
    cases hE : ts.isEmpty
    · rfl
    · rw [commonNumericType, if_pos hE] at h; exact absurd h (by simp)
  rw [commonNumericType_eq ts hne] at h
  by_cases hf : ts.any NumKind.isFloat
  · rw [if_pos hf] at h
    obtain ⟨bf, hbfmem, hbf⟩ := List.any_eq_true.mp hf
    by_cases h32 : ts.all (fun b => canRep NumKind.float32 b)
    · simp only [List.find?, h32] at h
      cases Option.some.inj h
      exact ⟨fun b hb => List.all_eq_true.mp h32 b hb,
        fun u hu => min_rank_f32 u bf hbf (hu bf hbfmem)⟩
    · have h32f : ts.all (fun b => canRep NumKind.float32 b) = false := by
        simpa using h32
      simp only [List.find?, h32f] at h
      obtain ⟨b32, hb32mem, hb32⟩ := exists_fail_of_all_false ts _ h32f
      by_cases h64 : ts.all (fun b => canRep NumKind.float64 b)
      · simp only [List.find?, h64] at h
        cases Option.some.inj h
        exact ⟨fun b hb => List.all_eq_true.mp h64 b hb,
          fun u hu => min_rank_f64 u bf b32 hbf hb32 (hu bf hbfmem) (hu b32 hb32mem)⟩
      · have h64f : ts.all (fun b => canRep NumKind.float64 b) = false := by simpa using h64
        simp only [List.find?, h64f] at h
        exact absurd h (by simp)
  · rw [if_neg hf] at h
    have hnf : ∀ b ∈ ts, b.isFloat = false := by
      intro b hb
      have := List.any_eq_false.mp (by simpa using hf) b hb
      simpa using this
    by_cases hs : ts.any NumKind.isSigned
    · rw [if_pos hs] at h
      obtain ⟨s, hsmem, hsgn⟩ := List.any_eq_true.mp hs
      by_cases h8 : ts.all (fun b => canRep NumKind.int8 b)
      · simp only [List.find?, h8] at h
        cases Option.some.inj h
        exact ⟨fun b hb => List.all_eq_true.mp h8 b hb,
          fun u hu => min_rank_i8 u s hsgn (hu s hsmem)⟩
      · have h8f : ts.all (fun b => canRep NumKind.int8 b) = false := by simpa using h8
        simp only [List.find?, h8f] at h
        obtain ⟨b8, hb8mem, hb8⟩ := exists_fail_of_all_false ts _ h8f
        by_cases h16 : ts.all (fun b => canRep NumKind.int16 b)
        · simp only [List.find?, h16] at h
          cases Option.some.inj h
          exact ⟨fun b hb => List.all_eq_true.mp h16 b hb,
            fun u hu => min_rank_i16 u s b8 hsgn (hnf b8 hb8mem) hb8
              (hu s hsmem) (hu b8 hb8mem)⟩
        · have h16f : ts.all (fun b => canRep NumKind.int16 b) = false := by simpa using h16
          simp only [List.find?, h16f] at h
          obtain ⟨b16, hb16mem, hb16⟩ := exists_fail_of_all_false ts _ h16f
          by_cases h32 : ts.all (fun b => canRep NumKind.int32 b)
          · simp only [List.find?, h32] at h
            cases Option.some.inj h
            exact ⟨fun b hb => List.all_eq_true.mp h32 b hb,
              fun u hu => min_rank_i32 u s b16 hsgn (hnf b16 hb16mem) hb16
                (hu s hsmem) (hu b16 hb16mem)⟩
          · have h32f : ts.all (fun b => canRep NumKind.int32 b) = false := by simpa using h32
            simp only [List.find?, h32f] at h
            obtain ⟨b32, hb32mem, hb32⟩ := exists_fail_of_all_false ts _ h32f
            by_cases h64 : ts.all (fun b => canRep NumKind.int64 b)
            · simp only [List.find?, h64] at h
              cases Option.some.inj h
              have hrep64 : ∀ b ∈ ts, canRep NumKind.int64 b = true :=
                fun b hb => List.all_eq_true.mp h64 b hb
              exact ⟨hrep64,
                fun u hu => min_rank_i64 u s b32 hsgn (hnf b32 hb32mem) hb32
                  (hrep64 b32 hb32mem) (hu s hsmem) (hu b32 hb32mem)⟩
            · have h64f : ts.all (fun b => canRep NumKind.int64 b) = false := by simpa using h64
              simp only [List.find?, h64f] at h
              exact absurd h (by simp)
    · rw [if_neg hs] at h
      have hns : ∀ b ∈ ts, b.isSigned = false := by
        intro b hb
        have := List.any_eq_false.mp (by simpa using hs) b hb
        simpa using this
      by_cases h8 : ts.all (fun b => canRep NumKind.uint8 b)
      · simp only [List.find?, h8] at h
        cases Option.some.inj h
        exact ⟨fun b hb => List.all_eq_true.mp h8 b hb,
          fun u _ => Nat.zero_le u.rank⟩
      · have h8f : ts.all (fun b => canRep NumKind.uint8 b) = false := by simpa using h8
        simp only [List.find?, h8f] at h
        obtain ⟨b8, hb8mem, hb8⟩ := exists_fail_of_all_false ts _ h8f
        by_cases h16 : ts.all (fun b => canRep NumKind.uint16 b)
        · simp only [List.find?, h16] at h
          cases Option.some.inj h
          exact ⟨fun b hb => List.all_eq_true.mp h16 b hb,
            fun u hu => min_rank_u16 u b8 (hnf b8 hb8mem) (hns b8 hb8mem) hb8
              (hu b8 hb8mem)⟩
        · have h16f : ts.all (fun b => canRep NumKind.uint16 b) = false := by simpa using h16
          simp only [List.find?, h16f] at h
          obtain ⟨b16, hb16mem, hb16⟩ := exists_fail_of_all_false ts _ h16f
          by_cases h32 : ts.all (fun b => canRep NumKind.uint32 b)
          · simp only [List.find?, h32] at h
            cases Option.some.inj h
            exact ⟨fun b hb => List.all_eq_true.mp h32 b hb,
              fun u hu => min_rank_u32 u b16 (hnf b16 hb16mem) (hns b16 hb16mem) hb16
                (hu b16 hb16mem)⟩
          · have h32f : ts.all (fun b => canRep NumKind.uint32 b) = false := by simpa using h32
            simp only [List.find?, h32f] at h
            obtain ⟨b32, hb32mem, hb32⟩ := exists_fail_of_all_false ts _ h32f
            by_cases h64 : ts.all (fun b => canRep NumKind.uint64 b)
            · simp only [List.find?, h64] at h
              cases Option.some.inj h
              exact ⟨fun b hb => List.all_eq_true.mp h64 b hb,
                fun u hu => min_rank_u64 u b32 (hnf b32 hb32mem) (hns b32 hb32mem) hb32
                  (hu b32 hb32mem)⟩
            · exact absurd (List.all_eq_true.mpr
                (fun b hb => canRep_uint64_uns b (hnf b hb) (hns b hb))) (by simpa using h64)

/-- When the promotion collaborator fails on a nonempty input, no numeric
kind at all represents every input losslessly. -/
theorem commonNumericType_none_no_common (ts : List NumKind) (hne : ts.isEmpty = false)
    (h : commonNumericType ts = none) : ∀ u, ∃ b ∈ ts, canRep u b = false := by
  rw [commonNumericType_eq ts hne] at h
  by_cases hf : ts.any NumKind.isFloat
  · rw [if_pos hf] at h
    obtain ⟨bf, hbfmem, hbf⟩ := List.any_eq_true.mp hf
    by_cases h32 : ts.all (fun b => canRep NumKind.float32 b)
    · simp only [List.find?, h32] at h; exact absurd h (by simp)
    · have h32f : ts.all (fun b => canRep NumKind.float32 b) = false := by simpa using h32
      simp only [List.find?, h32f] at h
      by_cases h64 : ts.all (fun b => canRep NumKind.float64 b)
      · simp only [List.find?, h64] at h; exact absurd h (by simp)
      · have h64f : ts.all (fun b => canRep NumKind.float64 b) = false := by simpa using h64
        obtain ⟨b32, hb32mem, hb32⟩ := exists_fail_of_all_false ts _ h32f
        obtain ⟨b64, hb64mem, hb64⟩ := exists_fail_of_all_false ts _ h64f
        intro u
        rcases none_float_family u bf b32 b64 hbf hb32 hb64 with hc | hc | hc
        · exact ⟨bf, hbfmem, hc⟩
        · exact ⟨b32, hb32mem, hc⟩
        · exact ⟨b64, hb64mem, hc⟩
  · rw [if_neg hf] at h
    have hnf : ∀ b ∈ ts, b.isFloat = false := by
      intro b hb
      have := List.any_eq_false.mp (by simpa using hf) b hb
      simpa using this
    by_cases hs : ts.any NumKind.isSigned
    · rw [if_pos hs] at h
      obtain ⟨s, hsmem, hsgn⟩ := List.any_eq_true.mp hs
      have h64f : ts.all (fun b => canRep NumKind.int64 b) = false := by
        by_cases h64 : ts.all (fun b => canRep NumKind.int64 b)
        · exfalso
          revert h
          rcases h8 : ts.all (fun b => canRep NumKind.int8 b) with _ | _
          · rcases h16 : ts.all (fun b => canRep NumKind.int16 b) with _ | _
            · rcases h32 : ts.all (fun b => canRep NumKind.int32 b) with _ | _
              · simp [List.find?, h8, h16, h32, h64]
              · simp [List.find?, h8, h16, h32]
            · simp [List.find?, h8, h16]
          · simp [List.find?, h8]
        · simpa using h64
      obtain ⟨b64, hb64mem, hb64⟩ := exists_fail_of_all_false ts _ h64f
      intro u
      rcases none_signed_family u s b64 hsgn (hnf b64 hb64mem) hb64 with hc | hc
      · exact ⟨s, hsmem, hc⟩
      · exact ⟨b64, hb64mem, hc⟩
    · rw [if_neg hs] at h
      exfalso
      have hns : ∀ b ∈ ts, b.isSigned = false := by
        intro b hb
        have := List.any_eq_false.mp (by simpa using hs) b hb
        simpa using this
      have h64 : ts.all (fun b => canRep NumKind.uint64 b) = true :=
        List.all_eq_true.mpr (fun b hb => canRep_uint64_uns b (hnf b hb) (hns b hb))
      revert h
      rcases h8 : ts.all (fun b => canRep NumKind.uint8 b) with _ | _
      · rcases h16 : ts.all (fun b => canRep NumKind.uint16 b) with _ | _
        · rcases h32 : ts.all (fun b => canRep NumKind.uint32 b) with _ | _
          · simp [List.find?, h8, h16, h32, h64]
          · simp [List.find?, h8, h16, h32]
        · simp [List.find?, h8, h16]
      · simp [List.find?, h8]

theorem branchNumKinds_ne_nil_of_arith (args : List DataType)
    (hA : hasArithmeticBranches args = true) : (branchNumKinds args).isEmpty = false := by
  have hany : (branchIdxs args.length).any
      (fun i => (args.getD i .nullType).unwrapNullable.isNumeric) = true := by
    have h2 := hA
    simp only [hasArithmeticBranches, Bool.and_eq_true] at h2
    exact h2.2
  obtain ⟨i, hi, hnum⟩ := List.any_eq_true.mp hany
  have hmem : ∃ k, k ∈ branchNumKinds args := by
    cases hk : (args.getD i .nullType).unwrapNullable with
    | num k =>
      exact ⟨k, List.mem_filterMap.mpr ⟨i, hi, by rw [hk]⟩⟩
    | nullType => rw [hk] at hnum; exact absurd hnum (by simp [DataType.isNumeric])
    | string => rw [hk] at hnum; exact absurd hnum (by simp [DataType.isNumeric])
    | fixedString n => rw [hk] at hnum; exact absurd hnum (by simp [DataType.isNumeric])
    | array t => rw [hk] at hnum; exact absurd hnum (by simp [DataType.isNumeric])
    | nullable t => rw [hk] at hnum; exact absurd hnum (by simp [DataType.isNumeric])
  obtain ⟨k, hk⟩ := hmem
  cases hE : (branchNumKinds args).isEmpty
  · rfl
  · rw [List.isEmpty_iff.mp hE] at hk
    exact absurd hk (List.not_mem_nil k)

/-- C2: for every argument list whose then/else branches are all arithmetic
after unwrapping nullable, type resolution returns the minimal common numeric
type representing every branch without precision loss, wrapped in nullable
exactly when some then/else branch is nullable-wrapped or null-typed; when no
common numeric type exists it fails with the upscale-impossible error. -/
theorem multiIf_arithmetic_type_resolution (mode : Bool) (fuel : Nat)
    (args : List DataType)
    (hv : hasValidArgCount args = true)
    (hc : condTypesValid args = true)
    (hA : hasArithmeticBranches args = true) :
    (∀ k, commonNumericType (branchNumKinds args) = some k →
      getReturnTypeImpl mode (fuel + 1) args =
        .ok (wrapNullableIf (hasNullableDataTypes args || hasNullDataTypes args) (.num k)) ∧
      (wrapNullableIf (hasNullableDataTypes args || hasNullDataTypes args)
          (.num k)).isNullable = (hasNullableDataTypes args || hasNullDataTypes args) ∧
      (∀ b ∈ branchNumKinds args, canRep k b = true) ∧
      (∀ u, (∀ b ∈ branchNumKinds args, canRep u b = true) → k.rank ≤ u.rank)) ∧
    (commonNumericType (branchNumKinds args) = none →
      getReturnTypeImpl mode (fuel + 1) args = .error (.upscaleImpossible, mode) ∧
      ∀ u, ∃ b ∈ branchNumKinds args, canRep u b = false) := by
  constructor
  · intro k hk
    refine ⟨?_, ?_, (commonNumericType_represents_and_minimal _ k hk).1,
      (commonNumericType_represents_and_minimal _ k hk).2⟩
    · simp only [getReturnTypeImpl, hv, hc, hA, Bool.not_true, Bool.false_eq_true,
        if_false, if_true, getReturnTypeForArithmeticArgs, hk]
    · rw [wrapNullableIf_isNullable]
      simp [DataType.isNullable]
  · intro hk
    refine ⟨?_, commonNumericType_none_no_common _ (branchNumKinds_ne_nil_of_arith args hA) hk⟩
    simp only [getReturnTypeImpl, hv, hc, hA, Bool.not_true, Bool.false_eq_true,
      if_false, if_true, getReturnTypeForArithmeticArgs, hk]

/-- Witness for C2: branches Int8 and nullable UInt8 resolve to nullable
Int16, the minimal kind representing both. -/
theorem multiIf_arithmetic_type_resolution_witness :
    getReturnTypeImpl false 1 [.num .uint8, .num .int8, .nullable (.num .uint8)] =
      .ok (.nullable (.num .int16)) := by
  have h := (multiIf_arithmetic_type_resolution false 0
    [.num .uint8, .num .int8, .nullable (.num .uint8)]
    (by decide) (by decide) (by decide)).1 .int16 (by decide)
  simpa using h.1

/-! ## C9: the resolver never builds arrays of nullable elements -/

theorem getD_mem (l : List α) (i : Nat) (d : α) (h : i < l.length) : l.getD i d ∈ l := by
  rw [List.getD_eq_getElem?_getD, List.getElem?_eq_getElem h]
  exact List.getElem_mem h

theorem getD_oob (l : List α) (i : Nat) (d : α) (h : l.length ≤ i) : l.getD i d = d := by
  rw [List.getD_eq_getElem?_getD, List.getElem?_eq_none h]
  rfl

theorem wf_getD (args : List DataType) (i : Nat)
    (hwf : ∀ t ∈ args, t.wf = true) : (args.getD i .nullType).wf = true := by
  by_cases hi : i < args.length
  · exact hwf _ (getD_mem args i .nullType hi)
  · rw [getD_oob args i .nullType (Nat.le_of_not_lt hi)]
    rfl

theorem wf_wrapNullableIf (b : Bool) (t : DataType) (h1 : t.wf = true)
    (h2 : t.isNullable = false) : (wrapNullableIf b t).wf = true := by
  cases b <;> simp [wrapNullableIf, DataType.wf, h1, h2]

theorem wf_strip (t : DataType) (h : t.wf = true) :
    (if t.isNullable then t.unwrapNullable else t).wf = true ∧
    (if t.isNullable then t.unwrapNullable else t).isNullable = false := by
  cases t <;> simp_all [DataType.wf, DataType.isNullable, DataType.unwrapNullable]

theorem pushBranchArg_wf (t u : DataType) (h : t.wf = true)
    (he : pushBranchArg t = .ok u) : u.wf = true := by
  cases t with
  | nullable inner =>
    cases inner <;>
      simp_all [pushBranchArg, DataType.isNull, DataType.unwrapNullable, DataType.wf]
  | nullType => simp_all [pushBranchArg, DataType.isNull]
  | num k => simp_all [pushBranchArg, DataType.isNull, DataType.unwrapNullable]
  | string => simp_all [pushBranchArg, DataType.isNull, DataType.unwrapNullable]
  | fixedString n => simp_all [pushBranchArg, DataType.isNull, DataType.unwrapNullable]
  | array e => simp_all [pushBranchArg, DataType.isNull, DataType.unwrapNullable, DataType.wf]

theorem mapExcept_mem (g : α → Except ε β) (l : List α) (ys : List β)
    (h : mapExcept g l = .ok ys) : ∀ y ∈ ys, ∃ x ∈ l, g x = .ok y := by
  induction l generalizing ys with
  | nil =>
    simp only [mapExcept] at h
    cases h
    intro y hy
    exact absurd hy (List.not_mem_nil y)
  | cons a rest ih =>
    simp only [mapExcept] at h
    split at h
    · exact absurd h (by simp)
    · rename_i y0 hy0
      split at h
      · exact absurd h (by simp)
      · rename_i ys0 hys0
        cases h
        intro y hy
        rcases List.mem_cons.mp hy with hc | hc
        · exact ⟨a, List.mem_cons_self a rest, hc ▸ hy0⟩
        · obtain ⟨x, hx, hgx⟩ := ih ys0 hys0 y hc
          exact ⟨x, List.mem_cons_of_mem a hx, hgx⟩

theorem buildArrayElemArgs_wf (args newArgs : List DataType)
    (hwf : ∀ t ∈ args, t.wf = true)
    (h : buildArrayElemArgs args = .ok newArgs) : ∀ t ∈ newArgs, t.wf = true := by
  unfold buildArrayElemArgs at h
  split at h
  · exact absurd h (by simp)
  · rename_i front hfront
    split at h
    · exact absurd h (by simp)
    · rename_i last hlast
      cases h
      intro t ht
      rcases List.mem_append.mp ht with hc | hc
      · obtain ⟨i, -, hgi⟩ := mapExcept_mem _ _ front hfront t hc
        by_cases hpar : i % 2 == 0
        · rw [if_pos hpar] at hgi
          cases hgi
          exact wf_getD args i hwf
        · rw [if_neg hpar] at hgi
          exact pushBranchArg_wf _ t (wf_getD args i hwf) hgi
      · cases List.mem_singleton.mp hc
        exact pushBranchArg_wf _ _ (wf_getD args _ hwf) hlast

/-- The resolver preserves well-formedness: on well-formed argument types a
successful resolution is itself well-formed (in particular it never stacks
two nullable wrappers). -/
theorem getReturnTypeImpl_wf (mode : Bool) :
    ∀ fuel (args : List DataType) (T : DataType),
      (∀ t ∈ args, t.wf = true) → getReturnTypeImpl mode fuel args = .ok T →
      T.wf = true := by
  intro fuel
  induction fuel with
  | zero => intro args T _ h; exact absurd h (by simp [getReturnTypeImpl])
  | succ fuel ih =>
    intro args T hwf h
    simp only [getReturnTypeImpl] at h
    split at h
    · exact absurd h (by simp)
    · split at h
      · exact absurd h (by simp)
      · split at h
        · -- arithmetic branch
          unfold getReturnTypeForArithmeticArgs at h
          split at h
          · cases h
            exact wf_wrapNullableIf _ _ rfl rfl
          · exact absurd h (by simp)
        · split at h
          · -- array branch
            split at h
            · exact absurd h (by simp)
            · rename_i newArgs hnew
              split at h
              · exact absurd h (by simp)
              · rename_i eltType helt
                cases h
                have hweltT : eltType.wf = true :=
                  ih newArgs eltType (buildArrayElemArgs_wf args newArgs hwf hnew) helt
                have hstrip := wf_strip eltType hweltT
                exact wf_wrapNullableIf _ _ (by simpa [DataType.wf] using hstrip.1) rfl
          · split at h
            · split at h
              · split at h
                · exact absurd h (by simp)
                · split at h
                  · cases h
                    exact wf_wrapNullableIf _ _ rfl rfl
                  · exact absurd h (by simp)
              · split at h
                · cases h
                  exact wf_wrapNullableIf _ _ rfl rfl
                · exact absurd h (by simp)
            · split at h
              · rename_i i hfind
                cases h
                have hwt : (args.getD i .nullType).wf = true := wf_getD args i hwf
                by_cases hnb : (args.getD i .nullType).isNullable = true
                · rw [if_pos hnb]
                  exact hwt
                · rw [if_neg hnb]
                  have hnb2 : (args.getD i .nullType).isNullable = false := by
                    simpa using hnb
                  by_cases hw : (hasNullableDataTypes args || hasNullDataTypes args) = true
                  · rw [if_pos hw]
                    show (!(args.getD i .nullType).isNullable && (args.getD i .nullType).wf) = true
                    rw [hnb2, hwt]
                    rfl
                  · rw [if_neg hw]
                    exact hwt
              · cases h
                rfl

/-- C9: whenever type resolution takes the all-arrays branch and succeeds on
well-formed argument types, the element type of the resulting array type is
never nullable: branch nullability surfaces only as a nullable wrapper around
the whole array type. -/
theorem multiIf_array_element_never_nullable (mode : Bool) (fuel : Nat)
    (args : List DataType) (T : DataType)
    (hwf : ∀ t ∈ args, t.wf = true)
    (hA : hasArithmeticBranches args = false)
    (hR : hasArrayBranches args = true)
    (h : getReturnTypeImpl mode fuel args = .ok T) :
    ∃ elt, elt.isNullable = false ∧
      (T = .array elt ∨ T = .nullable (.array elt)) := by
  cases fuel with
  | zero => exact absurd h (by simp [getReturnTypeImpl])
  | succ fuel =>
    simp only [getReturnTypeImpl, hA, hR, Bool.not_true, Bool.not_false,
      Bool.false_eq_true, Bool.true_eq_false, if_false, if_true] at h
    split at h
    · exact absurd h (by simp)
    · split at h
      · exact absurd h (by simp)
      · split at h
        · exact absurd h (by simp)
        · rename_i hnotnew newArgs hnew
          split at h
          · exact absurd h (by simp)
          · rename_i eltType helt
            cases h
            have hweltT : eltType.wf = true :=
              getReturnTypeImpl_wf mode fuel newArgs eltType
                (buildArrayElemArgs_wf args newArgs hwf hnew) helt
            have hstrip := wf_strip eltType hweltT
            refine ⟨if eltType.isNullable then eltType.unwrapNullable else eltType,
              hstrip.2, ?_⟩
            cases hb : hasNullableDataTypes args || hasNullDataTypes args
            · exact Or.inl (by simp [wrapNullableIf, hb])
            · exact Or.inr (by simp [wrapNullableIf, hb])

/-- Witness for C9: branches Array(Int32) and Null resolve to a nullable
array type whose element type is the plain Int32. -/
theorem multiIf_array_element_never_nullable_witness :
    ∃ elt, elt.isNullable = false ∧
      ((DataType.nullable (.array (.num .int32)) : DataType) = .array elt ∨
       (DataType.nullable (.array (.num .int32)) : DataType) = .nullable (.array elt)) :=
  multiIf_array_element_never_nullable false 2
    [.num .uint8, .array (.num .int32), .nullType] (.nullable (.array (.num .int32)))
    (by decide) (by decide) (by decide) (by rfl)

/-! ## C1: correctness of the reconstructed null bitmap -/

theorem getD_map_range (f : Nat → α) (n i : Nat) (d : α) (h : i < n) :
    ((List.range n).map f).getD i d = f i := by
  rw [List.getD_eq_getElem?_getD, List.getElem?_map, List.getElem?_range h]
  rfl

/-- C1: the reconstructed null bitmap of the nullable execution path.  For a
constant tracker naming one source column it is all-one when that source is
null-typed, a copy of the source bitmap when the source is nullable, and
all-zero otherwise.  For a per-row tracker, within the bounds envelope in
which the flag-table accesses of the source are in range (every argument
position below the argument count, every tracker value an argument position),
the bit of each row is 1 when the recorded source column is null-typed, the
source column own bit at that row when it is nullable, and 0 otherwise. -/
theorem multiIf_null_bitmap_reconstruction (block : Block) (args : List Nat)
    (rowCount : Nat) :
    (∀ rows pos,
      buildResultNullMap block args rowCount (.constCol (.num .uint16) rows pos) =
        .ok (if (block.getD pos defaultCTN).column.isNull then
               List.replicate rowCount true
             else if (block.getD pos defaultCTN).column.isNullable then
               (block.getD pos defaultCTN).column.nullMapOf
             else List.replicate rowCount false)) ∧
    (∀ data, (∀ a ∈ args, a < args.length) → (∀ p ∈ data, p ∈ args) →
      rowCount ≤ data.length →
      ∃ nm, buildResultNullMap block args rowCount (.vecCol (.num .uint16) data) = .ok nm ∧
        ∀ row, row < rowCount →
          nm.getD row false =
            (if (block.getD (data.getD row 0) defaultCTN).column.isNull then true
             else if (block.getD (data.getD row 0) defaultCTN).column.isNullable then
               (block.getD (data.getD row 0) defaultCTN).column.isNullAt row
             else false)) := by
  constructor
  · intro rows pos
    simp only [buildResultNullMap]
    by_cases h1 : (block.getD pos defaultCTN).column.isNull = true
    · rw [if_pos h1, if_pos h1]
    · rw [if_neg h1, if_neg h1]
      by_cases h2 : (block.getD pos defaultCTN).column.isNullable = true
      · rw [if_pos h2, if_pos h2]
      · rw [if_neg h2, if_neg h2]
  · intro data hargs hdata hrc
    refine ⟨_, rfl, ?_⟩
    intro row hrow
    rw [getD_map_range _ rowCount row false hrow]
    have hmem : data.getD row 0 ∈ args :=
      hdata _ (getD_mem data row 0 (Nat.lt_of_lt_of_le hrow hrc))
    have hlt : data.getD row 0 < args.length := hargs _ hmem
    simp only [buildFlagTable_getD block args Column.isNull _ hmem hlt,
      buildFlagTable_getD block args Column.isNullable _ hmem hlt]

/-- Witness for C1: a concrete block with a nullable column at position 0 and
a plain column at position 1 and the per-row tracker [0, 1]. -/
theorem multiIf_null_bitmap_reconstruction_witness :
    ∃ nm, buildResultNullMap
        [⟨Column.nullableCol (.vecCol (.num .int32) [5, 6]) [true, false],
          DataType.nullable (.num .int32)⟩,
         ⟨Column.vecCol (.num .int32) [7, 8], DataType.num .int32⟩,
         ⟨Column.nullCol 2, DataType.nullType⟩]
        [0, 1, 2] 2 (.vecCol (.num .uint16) [0, 1]) = .ok nm ∧
      ∀ row, row < 2 →
        nm.getD row false =
          (if (([⟨Column.nullableCol (.vecCol (.num .int32) [5, 6]) [true, false],
              DataType.nullable (.num .int32)⟩,
             ⟨Column.vecCol (.num .int32) [7, 8], DataType.num .int32⟩,
             ⟨Column.nullCol 2, DataType.nullType⟩] : Block).getD
               (([0, 1].getD row 0)) defaultCTN).column.isNull then true
           else if (([⟨Column.nullableCol (.vecCol (.num .int32) [5, 6]) [true, false],
              DataType.nullable (.num .int32)⟩,
             ⟨Column.vecCol (.num .int32) [7, 8], DataType.num .int32⟩,
             ⟨Column.nullCol 2, DataType.nullType⟩] : Block).getD
               (([0, 1].getD row 0)) defaultCTN).column.isNullable then
             (([⟨Column.nullableCol (.vecCol (.num .int32) [5, 6]) [true, false],
              DataType.nullable (.num .int32)⟩,
             ⟨Column.vecCol (.num .int32) [7, 8], DataType.num .int32⟩,
             ⟨Column.nullCol 2, DataType.nullType⟩] : Block).getD
               (([0, 1].getD row 0)) defaultCTN).column.isNullAt row
           else false) :=
  (multiIf_null_bitmap_reconstruction
    [⟨Column.nullableCol (.vecCol (.num .int32) [5, 6]) [true, false],
      DataType.nullable (.num .int32)⟩,
     ⟨Column.vecCol (.num .int32) [7, 8], DataType.num .int32⟩,
     ⟨Column.nullCol 2, DataType.nullType⟩] [0, 1, 2] 2).2
    [0, 1] (by decide) (by decide) (by decide)

/-! ## C3: no partial writes on error -/

/-- The two tracker column classes accepted by the bitmap reconstruction of
lines 195 and 214 (`ColumnConstUInt16` and `ColumnUInt16`). -/
def isTrackerShaped : Column → Bool
  | .constCol (.num .uint16) _ _ => true
  | .vecCol (.num .uint16) _ => true
  | _ => false

/-- The interface contract of the payload evaluators (spec §6 and §7): on any
error the output position is left unmodified, and a successful evaluation
with a distinct tracker position either fills the tracker with a UInt16
column or produces a null-typed result column. -/
def OracleContract (oracle : PayloadOracle) : Prop :=
  (∀ b a r t k b2, oracle b a r t = .error (k, b2) →
    b2.getD r defaultCTN = b.getD r defaultCTN) ∧
  (∀ b a r t b2, oracle b a r t = .ok (some b2) → r ≠ t →
    isTrackerShaped (b2.getD t defaultCTN).column = true ∨
    (b2.getD r defaultCTN).column.isNull = true)

theorem setColumnAt_length (b : Block) (i : Nat) (c : Column) :
    (setColumnAt b i c).length = b.length := by
  simp [setColumnAt]

/-- Reading the tracker position back after `make_result` with tracking
requested yields the constant UInt16 tracker column. -/
theorem trivialMakeResult_getD_tracker (block : Block) (ty : DataType)
    (sample : Field) (rc result tracker p : Nat)
    (htr : tracker < block.length) (hne : tracker ≠ result) :
    ((trivialMakeResult block ty sample rc result tracker p).getD tracker
      defaultCTN).column = .constCol (.num .uint16) rc p := by
  unfold trivialMakeResult
  rw [if_pos (bne_iff_ne.mpr hne)]
  rw [setColumnAt_getD_self _ tracker _ (by rw [setColumnAt_length]; exact htr)]

/-- A successful trivial-path run with a distinct tracker position either
produced a null-typed result column or filled the tracker position with a
constant UInt16 column. -/
theorem performTrivialCase_tracker (block : Block) (args : List Nat)
    (result tracker : Nat) (b2 : Block)
    (hres : result < block.length) (htr : tracker < block.length)
    (hne : tracker ≠ result)
    (h : performTrivialCase block args result tracker = .ok (some b2)) :
    (b2.getD result defaultCTN).column.isNull = true ∨
    isTrackerShaped (b2.getD tracker defaultCTN).column = true := by
  unfold performTrivialCase at h
  split at h
  · exact absurd (Except.ok.inj h) (by simp)
  · have hb := Option.some.inj (Except.ok.inj h)
    subst hb
    left
    rw [setColumnAt_getD_self block result _ hres]
    rfl
  · split at h
    · exact absurd (Except.ok.inj h) (by simp)
    · split at h
      · exact absurd h (by simp)
      · split at h
        · have hb := Option.some.inj (Except.ok.inj h)
          subst hb
          right
          rw [trivialMakeResult_getD_tracker block _ _ _ result tracker _ htr hne]
          rfl
        · have hb := Option.some.inj (Except.ok.inj h)
          subst hb
          right
          rw [trivialMakeResult_getD_tracker block _ _ _ result tracker _ htr hne]
          rfl

theorem performMultiIfChain_ok_cases (oracle : PayloadOracle) (block : Block)
    (args : List Nat) (result tracker : Nat) (b2 : Block)
    (h : performMultiIfChain oracle block args result tracker = .ok b2) :
    performTrivialCase block args result tracker = .ok (some b2) ∨
    oracle block args result tracker = .ok (some b2) := by
  unfold performMultiIfChain at h
  split at h
  · exact absurd h (by simp)
  · rename_i b htriv
    cases h
    exact Or.inl htriv
  · split at h
    · exact absurd h (by simp)
    · rename_i b horc
      cases h
      exact Or.inr horc
    · exact absurd h (by simp)

theorem performMultiIfChain_error_result (oracle : PayloadOracle) (block : Block)
    (args : List Nat) (result tracker : Nat) (k : ErrKind) (b2 : Block)
    (hor : OracleContract oracle)
    (h : performMultiIfChain oracle block args result tracker = .error (k, b2)) :
    b2.getD result defaultCTN = block.getD result defaultCTN := by
  unfold performMultiIfChain at h
  split at h
  · rw [(Prod.mk.injEq _ _ _ _ |>.mp (Except.error.inj h)).2]
  · exact absurd h (by simp)
  · split at h
    · rename_i e0 horc
      cases h
      exact hor.1 block args result tracker k b2 horc
    · exact absurd h (by simp)
    · rw [(Prod.mk.injEq _ _ _ _ |>.mp (Except.error.inj h)).2]

theorem buildResultNullMap_ok_of_shaped (block : Block) (args : List Nat)
    (rc : Nat) (c : Column) (h : isTrackerShaped c = true) :
    ∃ nm, buildResultNullMap block args rc c = .ok nm := by
  unfold isTrackerShaped at h
  split at h
  · simp only [buildResultNullMap]
    split_ifs <;> exact ⟨_, rfl⟩
  · exact ⟨_, rfl⟩
  · exact absurd h (by simp)

/-- C3: whenever the per-batch evaluation entry point terminates with an
error of any kind, the column at the requested output position of the
original batch is exactly what it was before the call, provided the payload
evaluators honour their interface contract. -/
theorem multiIf_no_partial_write_on_error (mode : Bool) (oracle : PayloadOracle)
    (block : Block) (args : List Nat) (result : Nat)
    (hor : OracleContract oracle) (hres : result < block.length) :
    ∀ e b2, executeImpl mode oracle block args result = .error (e, b2) →
      b2.getD result defaultCTN = block.getD result defaultCTN := by
  intro e b2 h
  unfold executeImpl at h
  split at h
  · -- non-nullable path
    split at h
    · rename_i k0 b0 hchain
      cases h
      exact performMultiIfChain_error_result oracle block args result result k0 b2 hor hchain
    · exact absurd h (by simp)
  · -- nullable path
    split at h
    · cases h
      rfl
    · rename_i nested2 hchain
      split at h
      · exact absurd h (by simp)
      · rename_i hsrcnull
        split at h
        · -- internal error of line 262: unreachable under the contract
          rename_i k0 hbm
          exfalso
          have hlen : (createBlockWithNestedColumns block
              ((branchIdxs args.length).map (fun i => args.getD i 0))).length =
              block.length :=
            createBlockWithNestedColumns_length block _
          have hne : trackerPosOf block args ≠ result := by
            unfold trackerPosOf
            rw [hlen]
            exact Nat.ne_of_gt hres
          have hresT : result < (nestedBlockOf block args).length := by
            unfold nestedBlockOf
            rw [List.length_append, hlen]
            exact Nat.lt_succ_of_lt hres
          have htrT : trackerPosOf block args < (nestedBlockOf block args).length := by
            unfold nestedBlockOf trackerPosOf
            rw [List.length_append]
            exact Nat.lt_succ_self _
          rcases performMultiIfChain_ok_cases oracle _ args result _ nested2 hchain
            with hc | hc
          · rcases performTrivialCase_tracker (nestedBlockOf block args) args result
                (trackerPosOf block args) nested2 hresT htrT hne hc with hnull | hshape
            · exact hsrcnull hnull
            · obtain ⟨nm, hnm⟩ := buildResultNullMap_ok_of_shaped block args
                (rowsInFirstColumn block) _ hshape
              rw [hnm] at hbm
              exact absurd hbm (by simp)
          · rcases hor.2 _ args result _ nested2 hc (Ne.symm hne) with hshape | hnull
            · obtain ⟨nm, hnm⟩ := buildResultNullMap_ok_of_shaped block args
                (rowsInFirstColumn block) _ hshape
              rw [hnm] at hbm
              exact absurd hbm (by simp)
            · exact hsrcnull hnull
        · exact absurd h (by simp)

/-- Witness for C3: branches of incompatible physical types with an
inapplicable oracle raise the no-applicable-evaluator error and leave the
output position untouched. -/
theorem multiIf_no_partial_write_on_error_witness :
    executeImpl false (fun _ _ _ _ => .ok none)
      [⟨Column.vecCol (.num .uint8) [1], DataType.num .uint8⟩,
       ⟨Column.vecCol (.num .int32) [5], DataType.num .int32⟩,
       ⟨Column.vecCol .string [7], DataType.string⟩,
       ⟨Column.absent, DataType.num .int32⟩] [0, 1, 2] 3 =
      .error ((.noApplicableEvaluator, false),
        [⟨Column.vecCol (.num .uint8) [1], DataType.num .uint8⟩,
         ⟨Column.vecCol (.num .int32) [5], DataType.num .int32⟩,
         ⟨Column.vecCol .string [7], DataType.string⟩,
         ⟨Column.absent, DataType.num .int32⟩]) ∧
    ([⟨Column.vecCol (.num .uint8) [1], DataType.num .uint8⟩,
      ⟨Column.vecCol (.num .int32) [5], DataType.num .int32⟩,
      ⟨Column.vecCol .string [7], DataType.string⟩,
      ⟨Column.absent, DataType.num .int32⟩] : Block).getD 3 defaultCTN =
    ([⟨Column.vecCol (.num .uint8) [1], DataType.num .uint8⟩,
      ⟨Column.vecCol (.num .int32) [5], DataType.num .int32⟩,
      ⟨Column.vecCol .string [7], DataType.string⟩,
      ⟨Column.absent, DataType.num .int32⟩] : Block).getD 3 defaultCTN :=
  ⟨by rfl,
   multiIf_no_partial_write_on_error false (fun _ _ _ _ => .ok none)
     [⟨Column.vecCol (.num .uint8) [1], DataType.num .uint8⟩,
      ⟨Column.vecCol (.num .int32) [5], DataType.num .int32⟩,
      ⟨Column.vecCol .string [7], DataType.string⟩,
      ⟨Column.absent, DataType.num .int32⟩] [0, 1, 2] 3
     ⟨fun _ _ _ _ _ _ hh => by simp at hh, fun _ _ _ _ _ hh => by simp at hh⟩
     (by decide) (.noApplicableEvaluator, false) _ (by rfl)⟩

/-! ## C5: the trivial constant-condition fast path -/

theorem condConstColOk_isConst (c : Column) (h : condConstColOk c = true) :
    c.isConst = true := by
  unfold condConstColOk at h
  split at h
  · rfl
  · rfl
  · exact absurd h (by simp)

theorem condSource0_ok_of_shape (c : Column) (h : condConstColOk c = true) :
    condSource0 c = .ok (condTrue0 c) := by
  unfold condConstColOk at h
  split at h
  · rfl
  · rfl
  · exact absurd h (by simp)

theorem mapExcept_all_ok (g : α → Except ε β) (f : α → β) (l : List α)
    (h : ∀ x ∈ l, g x = .ok (f x)) : mapExcept g l = .ok (l.map f) := by
  induction l with
  | nil => rfl
  | cons a rest ih =>
    simp only [mapExcept, h a (List.mem_cons_self a rest),
      ih (fun x hx => h x (List.mem_cons_of_mem a hx)), List.map_cons]

theorem zip_map_find (l : List Nat) (f : Nat → Bool) :
    ((l.zip (l.map f)).find? (fun iv => iv.2)) =
      (l.find? f).map (fun i => (i, f i)) := by
  induction l with
  | nil => rfl
  | cons a rest ih =>
    cases hfa : f a
    · simp only [List.map_cons, List.zip_cons_cons, List.find?, hfa]
      exact ih
    · simp only [List.map_cons, List.zip_cons_cons, List.find?, hfa]
      simp [hfa]

theorem scanBranches_stable (block : Block) (args : List Nat) (idxs : List Nat)
    (ts : DataType × Field)
    (h : ∀ r ∈ idxs, (block.getD (args.getD r 0) defaultCTN).type.isNull = false →
      (block.getD (args.getD r 0) defaultCTN).type = ts.1) :
    scanBranches block args idxs (some ts) = some (some ts) := by
  induction idxs with
  | nil => rfl
  | cons r rest ih =>
    simp only [scanBranches]
    cases hn : (block.getD (args.getD r 0) defaultCTN).type.isNull
    · rw [if_neg (by simp)]
      rw [h r (List.mem_cons_self r rest) hn]
      simp only [beq_self_eq_true, if_true]
      exact ih (fun x hx hnx => h x (List.mem_cons_of_mem r hx) hnx)
    · rw [if_pos rfl]
      exact ih (fun x hx hnx => h x (List.mem_cons_of_mem r hx) hnx)

theorem scanBranches_first (block : Block) (args : List Nat) (idxs : List Nat)
    (t0 : DataType) (j : Nat)
    (hsame : ∀ i ∈ idxs, (block.getD (args.getD i 0) defaultCTN).type.isNull = false →
      (block.getD (args.getD i 0) defaultCTN).type = t0)
    (hj : idxs.find? (fun i => !(block.getD (args.getD i 0) defaultCTN).type.isNull) =
      some j) :
    scanBranches block args idxs none =
      some (some ((block.getD (args.getD j 0) defaultCTN).type,
        (block.getD (args.getD j 0) defaultCTN).column.get0)) := by
  induction idxs with
  | nil => exact absurd hj (by simp)
  | cons i rest ih =>
    cases hn : (block.getD (args.getD i 0) defaultCTN).type.isNull
    · simp only [List.find?, hn, Bool.not_false] at hj
      have hij : i = j := Option.some.inj hj
      subst hij
      simp only [scanBranches]
      rw [if_neg (by rw [hn]; simp)]
      exact scanBranches_stable block args rest _
        (fun r hr hnr => by
          rw [hsame r (List.mem_cons_of_mem i hr) hnr,
            hsame i (List.mem_cons_self i rest) hn])
    · simp only [List.find?, hn, Bool.not_true] at hj
      simp only [scanBranches]
      rw [if_pos hn]
      exact ih (fun x hx hnx => hsame x (List.mem_cons_of_mem i hx) hnx) hj

/-- Reading the result position back after `make_result`: the selected branch
column, or a constant column of the common type built from the recorded
sample when the selected column is null-typed. -/
theorem trivialMakeResult_getD_result (block : Block) (ty : DataType)
    (sample : Field) (rc result tracker p : Nat) (hres : result < block.length) :
    ((trivialMakeResult block ty sample rc result tracker p).getD result
      defaultCTN).column =
      (if (block.getD p defaultCTN).column.isNull then ty.createConstColumn rc sample
       else (block.getD p defaultCTN).column) := by
  unfold trivialMakeResult
  by_cases hb : (tracker != result) = true
  · rw [if_pos hb, setColumnAt_getD_ne _ tracker result _ (bne_iff_ne.mp hb),
      setColumnAt_getD_self block result _ hres]
  · rw [if_neg hb, setColumnAt_getD_self block result _ hres]

/-- C5: when all non-null then/else branches of the block share one exact
type and every condition column is a valid constant (constant UInt8, or a
null-type column read as always-false), the trivial fast path succeeds; it
selects, by evaluating the condition constants in branch order, the then
branch of the first true condition, or the else branch when none is true;
the selected branch column becomes the output, except that a null-typed
selected column is materialised as a constant column of the common type
using the sample taken from the first non-null branch `j`. -/
theorem multiIf_trivial_case_selects_first_true (block : Block) (args : List Nat)
    (result tracker : Nat) (j : Nat)
    (hres : result < block.length)
    (hsame : ∀ i ∈ branchIdxs args.length, ∀ i2 ∈ branchIdxs args.length,
      (block.getD (args.getD i 0) defaultCTN).type.isNull = false →
      (block.getD (args.getD i2 0) defaultCTN).type.isNull = false →
      (block.getD (args.getD i 0) defaultCTN).type =
        (block.getD (args.getD i2 0) defaultCTN).type)
    (hconds : ∀ i ∈ condIdxs args.length,
      condConstColOk (block.getD (args.getD i 0) defaultCTN).column = true)
    (hj : (branchIdxs args.length).find?
      (fun i => !(block.getD (args.getD i 0) defaultCTN).type.isNull) = some j) :
    ∃ b2, performTrivialCase block args result tracker = .ok (some b2) ∧
      (b2.getD result defaultCTN).column =
        (match (condIdxs args.length).find?
            (fun i => condTrue0 (block.getD (args.getD i 0) defaultCTN).column) with
         | some i =>
           if (block.getD (args.getD (i + 1) 0) defaultCTN).column.isNull then
             ((block.getD (args.getD j 0) defaultCTN).type).createConstColumn
               (rowsInFirstColumn block)
               ((block.getD (args.getD j 0) defaultCTN).column.get0)
           else (block.getD (args.getD (i + 1) 0) defaultCTN).column
         | none =>
           if (block.getD (args.getD (elseArg args) 0) defaultCTN).column.isNull then
             ((block.getD (args.getD j 0) defaultCTN).type).createConstColumn
               (rowsInFirstColumn block)
               ((block.getD (args.getD j 0) defaultCTN).column.get0)
           else (block.getD (args.getD (elseArg args) 0) defaultCTN).column) := by
  have hjmem : j ∈ branchIdxs args.length := List.mem_of_find?_eq_some hj
  have hjnn : (block.getD (args.getD j 0) defaultCTN).type.isNull = false := by
    have := List.find?_some hj
    simpa using this
  have hsame1 : ∀ i ∈ branchIdxs args.length,
      (block.getD (args.getD i 0) defaultCTN).type.isNull = false →
      (block.getD (args.getD i 0) defaultCTN).type =
        (block.getD (args.getD j 0) defaultCTN).type :=
    fun i hi hni => hsame i hi j hjmem hni hjnn
  have hscan := scanBranches_first block args (branchIdxs args.length) _ j hsame1 hj
  have hconst : (condIdxs args.length).all
      (fun i => (block.getD (args.getD i 0) defaultCTN).column.isConst) = true :=
    List.all_eq_true.mpr (fun i hi => condConstColOk_isConst _ (hconds i hi))
  have hmap : mapExcept
      (fun i => condSource0 (block.getD (args.getD i 0) defaultCTN).column)
      (condIdxs args.length) =
      .ok ((condIdxs args.length).map
        (fun i => condTrue0 (block.getD (args.getD i 0) defaultCTN).column)) :=
    mapExcept_all_ok _ _ _ (fun i hi => condSource0_ok_of_shape _ (hconds i hi))
  unfold performTrivialCase
  rw [hscan, hconst]
  simp only [Bool.not_true, Bool.false_eq_true, if_false]
  simp only [hmap]
  simp only [zip_map_find (condIdxs args.length)
    (fun i => condTrue0 (block.getD (args.getD i 0) defaultCTN).column)]
  cases hfind : (condIdxs args.length).find?
      (fun i => condTrue0 (block.getD (args.getD i 0) defaultCTN).column) with
  | some i =>
    simp only [Option.map_some]
    exact ⟨_, rfl, trivialMakeResult_getD_result block _ _ _ result tracker _ hres⟩
  | none =>
    simp only [Option.map_none]
    exact ⟨_, rfl, trivialMakeResult_getD_result block _ _ _ result tracker _ hres⟩

/-- Witness for C5: a true constant first condition selects the first then
branch of a two-branch Int32 conditional. -/
theorem multiIf_trivial_case_selects_first_true_witness :
    ∃ b2, performTrivialCase
        [⟨Column.constCol (.num .uint8) 2 1, DataType.num .uint8⟩,
         ⟨Column.vecCol (.num .int32) [10, 20], DataType.num .int32⟩,
         ⟨Column.constCol (.num .int32) 2 7, DataType.num .int32⟩,
         ⟨Column.absent, DataType.num .int32⟩] [0, 1, 2] 3 3 = .ok (some b2) ∧
      (b2.getD 3 defaultCTN).column =
        (match (condIdxs 3).find?
            (fun i => condTrue0 (([⟨Column.constCol (.num .uint8) 2 1, DataType.num .uint8⟩,
               ⟨Column.vecCol (.num .int32) [10, 20], DataType.num .int32⟩,
               ⟨Column.constCol (.num .int32) 2 7, DataType.num .int32⟩,
               ⟨Column.absent, DataType.num .int32⟩] : Block).getD
                 (([0, 1, 2].getD i 0)) defaultCTN).column) with
         | some i =>
           if (([⟨Column.constCol (.num .uint8) 2 1, DataType.num .uint8⟩,
               ⟨Column.vecCol (.num .int32) [10, 20], DataType.num .int32⟩,
               ⟨Column.constCol (.num .int32) 2 7, DataType.num .int32⟩,
               ⟨Column.absent, DataType.num .int32⟩] : Block).getD
                 (([0, 1, 2].getD (i + 1) 0)) defaultCTN).column.isNull then
             ((([⟨Column.constCol (.num .uint8) 2 1, DataType.num .uint8⟩,
               ⟨Column.vecCol (.num .int32) [10, 20], DataType.num .int32⟩,
               ⟨Column.constCol (.num .int32) 2 7, DataType.num .int32⟩,
               ⟨Column.absent, DataType.num .int32⟩] : Block).getD
                 (([0, 1, 2].getD 1 0)) defaultCTN).type).createConstColumn
               (rowsInFirstColumn
                 [⟨Column.constCol (.num .uint8) 2 1, DataType.num .uint8⟩,
                  ⟨Column.vecCol (.num .int32) [10, 20], DataType.num .int32⟩,
                  ⟨Column.constCol (.num .int32) 2 7, DataType.num .int32⟩,
                  ⟨Column.absent, DataType.num .int32⟩])
               ((([⟨Column.constCol (.num .uint8) 2 1, DataType.num .uint8⟩,
                 ⟨Column.vecCol (.num .int32) [10, 20], DataType.num .int32⟩,
                 ⟨Column.constCol (.num .int32) 2 7, DataType.num .int32⟩,
                 ⟨Column.absent, DataType.num .int32⟩] : Block).getD
                   (([0, 1, 2].getD 1 0)) defaultCTN).column.get0)
           else (([⟨Column.constCol (.num .uint8) 2 1, DataType.num .uint8⟩,
               ⟨Column.vecCol (.num .int32) [10, 20], DataType.num .int32⟩,
               ⟨Column.constCol (.num .int32) 2 7, DataType.num .int32⟩,
               ⟨Column.absent, DataType.num .int32⟩] : Block).getD
                 (([0, 1, 2].getD (i + 1) 0)) defaultCTN).column
         | none =>
           if (([⟨Column.constCol (.num .uint8) 2 1, DataType.num .uint8⟩,
               ⟨Column.vecCol (.num .int32) [10, 20], DataType.num .int32⟩,
               ⟨Column.constCol (.num .int32) 2 7, DataType.num .int32⟩,
               ⟨Column.absent, DataType.num .int32⟩] : Block).getD
                 (([0, 1, 2].getD (elseArg [0, 1, 2]) 0)) defaultCTN).column.isNull then
             ((([⟨Column.constCol (.num .uint8) 2 1, DataType.num .uint8⟩,
               ⟨Column.vecCol (.num .int32) [10, 20], DataType.num .int32⟩,
               ⟨Column.constCol (.num .int32) 2 7, DataType.num .int32⟩,
               ⟨Column.absent, DataType.num .int32⟩] : Block).getD
                 (([0, 1, 2].getD 1 0)) defaultCTN).type).createConstColumn
               (rowsInFirstColumn
                 [⟨Column.constCol (.num .uint8) 2 1, DataType.num .uint8⟩,
                  ⟨Column.vecCol (.num .int32) [10, 20], DataType.num .int32⟩,
                  ⟨Column.constCol (.num .int32) 2 7, DataType.num .int32⟩,
                  ⟨Column.absent, DataType.num .int32⟩])
               ((([⟨Column.constCol (.num .uint8) 2 1, DataType.num .uint8⟩,
                 ⟨Column.vecCol (.num .int32) [10, 20], DataType.num .int32⟩,
                 ⟨Column.constCol (.num .int32) 2 7, DataType.num .int32⟩,
                 ⟨Column.absent, DataType.num .int32⟩] : Block).getD
                   (([0, 1, 2].getD 1 0)) defaultCTN).column.get0)
           else (([⟨Column.constCol (.num .uint8) 2 1, DataType.num .uint8⟩,
               ⟨Column.vecCol (.num .int32) [10, 20], DataType.num .int32⟩,
               ⟨Column.constCol (.num .int32) 2 7, DataType.num .int32⟩,
               ⟨Column.absent, DataType.num .int32⟩] : Block).getD
                 (([0, 1, 2].getD (elseArg [0, 1, 2]) 0)) defaultCTN).column) :=
  multiIf_trivial_case_selects_first_true
    [⟨Column.constCol (.num .uint8) 2 1, DataType.num .uint8⟩,
     ⟨Column.vecCol (.num .int32) [10, 20], DataType.num .int32⟩,
     ⟨Column.constCol (.num .int32) 2 7, DataType.num .int32⟩,
     ⟨Column.absent, DataType.num .int32⟩] [0, 1, 2] 3 3 1
    (by decide) (by decide) (by decide) (by decide)

end MultiIf
